import Mathlib

/-!
Verification of the api-gateway core of the fabric-samples-dfl repository.

The Go sources embedded here are:
  api-gateway/chaincode/asset-transfer-basic/chaincode/gateway_contract.go
    (the chaincode: registration, whitelist mirror, data/model commits,
     convergence records, convergence summaries, pagination),
  api-gateway/api/internal/whitelist/service.go  (List / Hierarchy / ToHierarchy),
  api-gateway/api/internal/models/service.go     (Service.List),
  api-gateway/api/internal/convergence/service.go
    (stateStatusFromLedger / nationStatusFromLedger / clustersForState /
     ListStateStatuses).

Modelling conventions.
The ledger state database is an association list from keys to decoded record
values; `putState` overwrites the value stored at a key in place and appends
new keys, and `getState` is lookup.  Byte payloads that Go would JSON-decode
are represented by the decoded records directly, and opaque payloads stay
plain strings (`decodePayload` of the convergence service is modelled as the
identity on the raw payload string).  The invoking client identity
(`ctx.GetClientIdentity().GetID()`) and the wall clock (`time.Now()...`) are
passed as explicit string arguments.  Go `strings.ToLower`,
`strings.TrimSpace`, `strings.EqualFold` and string `<` comparison are
re-implemented character-by-character below (ASCII case folding), because the
built-in `String.toLower` and the `String` order do not reduce in the kernel.
-/

/-- ASCII lower-casing of one character, the effect of Go `strings.ToLower`
on ASCII input. -/
def lowerChar (c : Char) : Char :=
  if 'A' ≤ c ∧ c ≤ 'Z' then Char.ofNat (c.toNat + 32) else c

/-- Model of Go `strings.ToLower`. -/
def toLowerStr (s : String) : String := String.mk (s.data.map lowerChar)

/-- Whitespace test used by the model of Go `strings.TrimSpace`. -/
def isWSChar (c : Char) : Bool := c = ' ' || c = '\t' || c = '\n' || c = '\r'

/-- Model of Go `strings.TrimSpace`: drop leading and trailing whitespace. -/
def trimStr (s : String) : String :=
  String.mk (((s.data.dropWhile isWSChar).reverse.dropWhile isWSChar).reverse)

/-- Model of Go `strings.EqualFold` (ASCII simple case folding). -/
def eqFold (a b : String) : Bool := toLowerStr a == toLowerStr b

/-- Lexicographic strict order on character lists, the order Go uses to
compare strings with `<` and to sort with `sort.Strings`. -/
def ltCharList : List Char → List Char → Bool
  | [], [] => false
  | [], _ :: _ => true
  | _ :: _, [] => false
  | a :: as, b :: bs => if a < b then true else if b < a then false else ltCharList as bs

/-- Go string `<`. -/
def ltStr (a b : String) : Bool := ltCharList a.data b.data

/-- Go string `<=` (total order used when sorting with `sort.Strings`). -/
def leStr (a b : String) : Bool := ! ltStr b a

theorem ltCharList_asymm : ∀ as bs : List Char,
    ltCharList as bs = true → ltCharList bs as = false := by
  intro as
  induction as with
  | nil => intro bs h; cases bs <;> simp [ltCharList] at *
  | cons a as ih =>
    intro bs h
    cases bs with
    | nil => simp [ltCharList] at h
    | cons b bs =>
      simp only [ltCharList] at h ⊢
      rcases lt_trichotomy a b with hab | hab | hab
      · simp [hab, lt_asymm hab]
      · subst hab
        simp only [lt_irrefl, if_false] at h ⊢
        exact ih bs h
      · simp [hab, lt_asymm hab] at h

theorem ltCharList_eq_of_not : ∀ as bs : List Char,
    ltCharList as bs = false → ltCharList bs as = false → as = bs := by
  intro as
  induction as with
  | nil => intro bs h _; cases bs <;> simp [ltCharList] at *
  | cons a as ih =>
    intro bs h h'
    cases bs with
    | nil => simp [ltCharList] at h'
    | cons b bs =>
      simp only [ltCharList] at h h'
      rcases lt_trichotomy a b with hab | hab | hab
      · simp [hab] at h
      · subst hab
        simp only [lt_irrefl, if_false] at h h'
        rw [ih bs h h']
      · simp [hab] at h'

theorem ltCharList_trans : ∀ as bs cs : List Char,
    ltCharList as bs = true → ltCharList bs cs = true → ltCharList as cs = true := by
  intro as
  induction as with
  | nil =>
    intro bs cs h h'
    cases bs with
    | nil => simp [ltCharList] at h
    | cons b bs => cases cs with
      | nil => simp [ltCharList] at h'
      | cons c cs => simp [ltCharList]
  | cons a as ih =>
    intro bs cs h h'
    cases bs with
    | nil => simp [ltCharList] at h
    | cons b bs =>
      cases cs with
      | nil => simp [ltCharList] at h'
      | cons c cs =>
        simp only [ltCharList] at h h' ⊢
        rcases lt_trichotomy a b with hab | hab | hab
        · rcases lt_trichotomy b c with hbc | hbc | hbc
          · simp [lt_trans hab hbc]
          · subst hbc; simp [hab]
          · simp [hbc, lt_asymm hbc] at h'
        · subst hab
          simp only [lt_irrefl, if_false] at h
          rcases lt_trichotomy a c with hac | hac | hac
          · simp [hac]
          · subst hac
            simp only [lt_irrefl, if_false] at h' ⊢
            exact ih bs cs h h'
          · simp [hac, lt_asymm hac] at h'
        · simp [hab, lt_asymm hab] at h

theorem leStr_total (a b : String) : leStr a b = true ∨ leStr b a = true := by
  by_cases h : ltCharList a.data b.data = true
  · exact Or.inl (by simp [leStr, ltStr, ltCharList_asymm _ _ h])
  · exact Or.inr (by simp [leStr, ltStr]; simpa using h)

theorem leStr_trans (a b c : String) (h : leStr a b = true) (h' : leStr b c = true) :
    leStr a c = true := by
  simp only [leStr, ltStr, Bool.not_eq_true'] at h h' ⊢
  rcases Bool.eq_false_or_eq_true (ltCharList c.data a.data) with hca | hca
  · rcases Bool.eq_false_or_eq_true (ltCharList b.data c.data) with hbc | hbc
    · have hba : ltCharList b.data a.data = true := ltCharList_trans _ _ _ hbc hca
      rw [hba] at h
      cases h
    · have hbceq : b.data = c.data := ltCharList_eq_of_not _ _ hbc h'
      rw [← hbceq] at hca
      rw [hca] at h
      cases h
  · exact hca

/-- Ordered insertion used by `sortStrings`. -/
def insertStr (a : String) : List String → List String
  | [] => [a]
  | b :: l => if leStr a b then a :: b :: l else b :: insertStr a l

/-- Model of Go `sort.Strings` (ascending lexicographic order).  Insertion
sort; on any multiset of strings every correct sort produces the same list,
so the choice of algorithm is immaterial. -/
def sortStrings : List String → List String
  | [] => []
  | a :: l => insertStr a (sortStrings l)

theorem perm_insertStr (a : String) : ∀ l, (insertStr a l).Perm (a :: l) := by
  intro l
  induction l with
  | nil => simp [insertStr]
  | cons b l ih =>
    simp only [insertStr]
    split
    · exact List.Perm.refl _
    · exact (ih.cons b).trans (List.Perm.swap a b l)

theorem perm_sortStrings : ∀ l : List String, (sortStrings l).Perm l := by
  intro l
  induction l with
  | nil => simp [sortStrings]
  | cons a l ih => exact (perm_insertStr a (sortStrings l)).trans (ih.cons a)

theorem sorted_insertStr (a : String) :
    ∀ l, List.Pairwise (fun x y => leStr x y = true) l →
      List.Pairwise (fun x y => leStr x y = true) (insertStr a l) := by
  intro l
  induction l with
  | nil => intro _; simp [insertStr]
  | cons b l ih =>
    intro h
    rw [List.pairwise_cons] at h
    obtain ⟨hb, hl⟩ := h
    simp only [insertStr]
    split
    case isTrue hab =>
      refine List.pairwise_cons.mpr ⟨?_, List.pairwise_cons.mpr ⟨hb, hl⟩⟩
      intro x hx
      rcases List.mem_cons.mp hx with rfl | hx
      · exact hab
      · exact leStr_trans a b x hab (hb x hx)
    case isFalse hab =>
      have hba : leStr b a = true := by
        rcases leStr_total a b with h1 | h1
        · exact absurd h1 hab
        · exact h1
      refine List.pairwise_cons.mpr ⟨?_, ih hl⟩
      intro x hx
      have hx2 := (perm_insertStr a l).mem_iff.mp hx
      rcases List.mem_cons.mp hx2 with rfl | hx3
      · exact hba
      · exact hb x hx3

theorem sorted_sortStrings :
    ∀ l, List.Pairwise (fun x y => leStr x y = true) (sortStrings l) := by
  intro l
  induction l with
  | nil => simp [sortStrings]
  | cons a l ih => exact sorted_insertStr a (sortStrings l) ih

/-- Decidable equality for `Except`, needed so concrete runs of the embedded
operations can be checked by `decide`. -/
instance {ε α : Type} [DecidableEq ε] [DecidableEq α] : DecidableEq (Except ε α) :=
  fun x y =>
    match x, y with
    | Except.ok a, Except.ok b =>
      if h : a = b then isTrue (by rw [h]) else isFalse (by intro he; cases he; exact h rfl)
    | Except.error a, Except.error b =>
      if h : a = b then isTrue (by rw [h]) else isFalse (by intro he; cases he; exact h rfl)
    | Except.ok _, Except.error _ => isFalse (by intro he; cases he)
    | Except.error _, Except.ok _ => isFalse (by intro he; cases he)

/-- Go struct `Trainer` (gateway_contract.go). -/
structure Trainer where
  clientID : String
  did : String
  nodeID : String
  state : String
  cluster : String
  vcHash : String
  publicKey : String
  status : String
  registered : String
deriving DecidableEq, Repr

/-- Go struct `WhitelistEntry` (gateway_contract.go); the api-side
`whitelist.Entry` / `whitelist.ledgerEntry` structs carry exactly the same
fields, so one structure serves all three. -/
structure WhitelistEntry where
  jwtSub : String
  did : String
  nodeID : String
  state : String
  cluster : String
  vcHash : String
  publicKey : String
  registered : String
deriving DecidableEq, Repr

/-- Go struct `DataRecord` (gateway_contract.go). -/
structure DataRecord where
  id : String
  owner : String
  payload : String
  submittedAt : String
deriving DecidableEq, Repr

/-- Go struct `ModelRecord` (gateway_contract.go). -/
structure ModelRecord where
  id : String
  layer : String
  scopeID : String
  owner : String
  payload : String
  submittedAt : String
deriving DecidableEq, Repr

/-- Go struct `ConvergenceRecord` (gateway_contract.go). -/
structure ConvergenceRecord where
  scope : String
  stateID : String
  clusterID : String
  sourceID : String
  payload : String
  submittedAt : String
deriving DecidableEq, Repr

/-- Go struct `ConvergenceSummary` (gateway_contract.go). -/
structure ConvergenceSummary where
  scope : String
  targetID : String
  declaredBy : String
  declaredAt : String
  payload : String
deriving DecidableEq, Repr

/-- A decoded value stored in the ledger state database.  In Go every value
is JSON bytes; the constructor records which record type the bytes decode
to. -/
inductive LVal where
  | trainer : Trainer → LVal
  | wl : WhitelistEntry → LVal
  | dataRec : DataRecord → LVal
  | modelRec : ModelRecord → LVal
  | convRec : ConvergenceRecord → LVal
  | convSum : ConvergenceSummary → LVal
deriving DecidableEq, Repr

/-- The ledger state database: an association list from keys to values.
`stub.GetState` / `stub.PutState` of the Fabric chaincode stub. -/
def Ledger : Type := List (String × LVal)

/-- `stub.GetState`: `none` models the empty byte slice Fabric returns for an
absent key. -/
def getState (l : Ledger) (k : String) : Option LVal :=
  match l with
  | [] => none
  | kv :: rest => if kv.1 = k then some kv.2 else getState rest k

/-- `stub.PutState`: overwrite the value at `k`, or append the key. -/
def putState (l : Ledger) (k : String) (v : LVal) : Ledger :=
  match l with
  | [] => [(k, v)]
  | kv :: rest => if kv.1 = k then (k, v) :: rest else kv :: putState rest k v

theorem getState_putState_self (l : Ledger) (k : String) (v : LVal) :
    getState (putState l k v) k = some v := by
  induction l with
  | nil => simp [putState, getState]
  | cons kv rest ih =>
    by_cases h : kv.1 = k
    · simp [putState, h, getState]
    · simp [putState, h, getState, ih]

theorem getState_putState_ne (l : Ledger) (k k' : String) (v : LVal)
    (h : k' ≠ k) : getState (putState l k v) k' = getState l k' := by
  induction l with
  | nil => simp [putState, getState, Ne.symm h]
  | cons kv rest ih =>
    by_cases hk : kv.1 = k
    · subst hk
      simp [putState, getState, Ne.symm h]
    · simp [putState, hk, getState, ih]

/-- Go `trainerKey` (gateway_contract.go 767-769); the key namespace
constants of the contract are inlined as string literals here. -/
def trainerKey (clientID : String) : String := "trainer:" ++ clientID

/-- Go `dataKey`. -/
def dataKey (id : String) : String := "data:" ++ id

/-- Go `modelKey`. -/
def modelKey (id : String) : String := "model:" ++ id

/-- Go `whitelistKey`. -/
def whitelistKey (jwtSub : String) : String :=
  "whitelist:" ++ toLowerStr (trimStr jwtSub)

/-- Go `stateClusterKey`. -/
def stateClusterKey (stateID clusterID : String) : String :=
  "conv:state:" ++ stateID ++ ":cluster:" ++ clusterID

/-- Go `stateSummaryKey`. -/
def stateSummaryKey (stateID : String) : String :=
  "conv:state:" ++ stateID ++ ":summary"

/-- Go `nationStateKey`. -/
def nationStateKey (stateID : String) : String :=
  "conv:nation:" ++ ("state:" ++ stateID)

/-- Go `nationSummaryKey`. -/
def nationSummaryKey : String := "conv:nation:" ++ "summary"

/-- Go `normalizeIdentifier`: lower-case, trim, reject empty (the error names
the offending field). -/
def normalizeIdentifier (value field : String) : Except String String :=
  let v := toLowerStr (trimStr value)
  if v = "" then Except.error (field ++ " is required") else Except.ok v

/-- Prefix test on character lists (`listStarts l p` is true when `p` is an
initial segment of `l`). -/
def listStarts : List Char → List Char → Bool
  | _, [] => true
  | [], _ :: _ => false
  | a :: as, b :: bs => a = b && listStarts as bs

/-- Model of Go `strings.HasSuffix`. -/
def strEnds (s suf : String) : Bool := listStarts s.data.reverse suf.data.reverse

/-- Model of Go `strings.Contains` (substring occurrence). -/
def containsSub (sub : List Char) : List Char → Bool
  | [] => listStarts [] sub
  | a :: rest => listStarts (a :: rest) sub || containsSub sub rest

/-- `stub.GetStateByRange(p, p + "~")`: the pairs whose key starts with `p`.
The real store iterates keys in byte order; no theorem below depends on the
iteration order of a range read, only on the set of scanned pairs. -/
def rangeScan (l : Ledger) (p : String) : List (String × LVal) :=
  l.filter (fun kv => listStarts kv.1.data p.data)

/-- Upsert into the association-list model of a Go `map[string]T`. -/
def mapPut {β : Type} (m : List (String × β)) (k : String) (v : β) : List (String × β) :=
  match m with
  | [] => [(k, v)]
  | kv :: rest => if kv.1 = k then (k, v) :: rest else kv :: mapPut rest k v

/-- Go package-level error value `errTrainerUnauthorized`. -/
def errTrainerUnauthorized : String := "trainer not authorized"

/-- Go `requireAuthorizedTrainer`: load the invoker's trainer record and
require a status that case-folds to AUTHORIZED.  A stored value of another
record type stands for bytes that do not decode to a `Trainer`. -/
def requireAuthorizedTrainer (l : Ledger) (clientID : String) : Except String Trainer :=
  match getState l (trainerKey clientID) with
  | none => Except.error errTrainerUnauthorized
  | some (LVal.trainer t) =>
      if eqFold t.status ("AUTHORIZED") then Except.ok t
      else Except.error errTrainerUnauthorized
  | some _ => Except.error errTrainerUnauthorized

/-- Go `RegisterTrainer` (gateway_contract.go 129-164).  Note: `state` and
`cluster` are trimmed but, unlike the other four fields, never checked for
presence. -/
def registerTrainer (l : Ledger)
    (clientID did nodeID vcHash publicKey state cluster now : String) :
    Ledger × Except String Unit :=
  if trimStr did = "" then (l, Except.error ("did is required"))
  else if trimStr nodeID = "" then (l, Except.error ("nodeId is required"))
  else if trimStr vcHash = "" then (l, Except.error ("vcHash is required"))
  else if trimStr publicKey = "" then (l, Except.error ("publicKey is required"))
  else
    let trainer : Trainer :=
      { clientID := clientID, did := did, nodeID := nodeID,
        state := trimStr state, cluster := trimStr cluster,
        vcHash := vcHash, publicKey := publicKey,
        status := "AUTHORIZED", registered := now }
    (putState l (trainerKey clientID) (LVal.trainer trainer), Except.ok ())

/-- Go `RecordWhitelistEntry` (gateway_contract.go 366-404).  As in
`RegisterTrainer`, `state` and `cluster` are trimmed but not required. -/
def recordWhitelistEntry (l : Ledger)
    (jwtSub did nodeID state cluster vcHash publicKey registered now : String) :
    Ledger × Except String Unit :=
  let sub := trimStr jwtSub
  if sub = "" then (l, Except.error ("jwtSub is required"))
  else if trimStr did = "" then (l, Except.error ("did is required"))
  else if trimStr nodeID = "" then (l, Except.error ("nodeId is required"))
  else if trimStr vcHash = "" then (l, Except.error ("vcHash is required"))
  else if trimStr publicKey = "" then (l, Except.error ("publicKey is required"))
  else
    let registeredAt := if trimStr registered = "" then now else trimStr registered
    let entry : WhitelistEntry :=
      { jwtSub := toLowerStr sub, did := did, nodeID := nodeID,
        state := trimStr state, cluster := trimStr cluster,
        vcHash := vcHash, publicKey := publicKey, registered := registeredAt }
    (putState l (whitelistKey entry.jwtSub) (LVal.wl entry), Except.ok ())

/-- Go `CommitData` (gateway_contract.go 179-201). -/
def commitData (l : Ledger) (clientID dataID payload now : String) :
    Ledger × Except String DataRecord :=
  match requireAuthorizedTrainer l clientID with
  | Except.error e => (l, Except.error e)
  | Except.ok trainer =>
    if trimStr dataID = "" then (l, Except.error ("data identifier is required"))
    else
      let record : DataRecord :=
        { id := dataID, owner := trainer.nodeID, payload := payload, submittedAt := now }
      (putState l (dataKey dataID) (LVal.dataRec record), Except.ok record)

/-- Go `ReadData` (gateway_contract.go 204-224).  Any authorized trainer
reaches the final return: there is no owner comparison. -/
def readData (l : Ledger) (clientID dataID : String) : Except String DataRecord :=
  match requireAuthorizedTrainer l clientID with
  | Except.error e => Except.error e
  | Except.ok _ =>
    if trimStr dataID = "" then Except.error ("data identifier is required")
    else
      match getState l (dataKey dataID) with
      | none => Except.error ("record " ++ dataID ++ " not found")
      | some (LVal.dataRec record) => Except.ok record
      | some _ => Except.error ("record does not decode")

/-- Go `CommitModel` (gateway_contract.go 227-260). -/
def commitModel (l : Ledger) (clientID dataID layer scopeID payload now : String) :
    Ledger × Except String ModelRecord :=
  match requireAuthorizedTrainer l clientID with
  | Except.error e => (l, Except.error e)
  | Except.ok trainer =>
    let id := trimStr dataID
    if id = "" then (l, Except.error ("data identifier is required"))
    else
      let normalizedLayer := toLowerStr (trimStr layer)
      if normalizedLayer = "" then (l, Except.error ("layer is required"))
      else
        let scope := trimStr scopeID
        if scope = "" then (l, Except.error ("scope identifier is required"))
        else
          let record : ModelRecord :=
            { id := id, layer := normalizedLayer, scopeID := scope,
              owner := trainer.nodeID, payload := payload, submittedAt := now }
          (putState l (modelKey id) (LVal.modelRec record), Except.ok record)

/-- Go `ReadModel` (gateway_contract.go 263-282): any authorized trainer may
read any model record. -/
def readModel (l : Ledger) (clientID dataID : String) : Except String ModelRecord :=
  match requireAuthorizedTrainer l clientID with
  | Except.error e => Except.error e
  | Except.ok _ =>
    if trimStr dataID = "" then Except.error ("data identifier is required")
    else
      match getState l (modelKey dataID) with
      | none => Except.error ("model " ++ dataID ++ " not found")
      | some (LVal.modelRec record) => Except.ok record
      | some _ => Except.error ("record does not decode")

/-- Go `CommitStateClusterConvergence` (gateway_contract.go 472-504). -/
def commitStateClusterConvergence (l : Ledger)
    (clientID stateID clusterID payload now : String) :
    Ledger × Except String ConvergenceRecord :=
  match requireAuthorizedTrainer l clientID with
  | Except.error e => (l, Except.error e)
  | Except.ok trainer =>
    match normalizeIdentifier stateID ("stateId") with
    | Except.error e => (l, Except.error e)
    | Except.ok sid =>
      match normalizeIdentifier clusterID ("clusterId") with
      | Except.error e => (l, Except.error e)
      | Except.ok cid =>
        if trimStr payload = "" then (l, Except.error ("payload is required"))
        else
          let record : ConvergenceRecord :=
            { scope := "state", stateID := sid, clusterID := cid,
              sourceID := trainer.nodeID, payload := payload, submittedAt := now }
          (putState l (stateClusterKey sid cid) (LVal.convRec record), Except.ok record)

/-- Go `CommitNationStateConvergence` (gateway_contract.go 507-534). -/
def commitNationStateConvergence (l : Ledger) (clientID stateID payload now : String) :
    Ledger × Except String ConvergenceRecord :=
  match requireAuthorizedTrainer l clientID with
  | Except.error e => (l, Except.error e)
  | Except.ok trainer =>
    match normalizeIdentifier stateID ("stateId") with
    | Except.error e => (l, Except.error e)
    | Except.ok sid =>
      if trimStr payload = "" then (l, Except.error ("payload is required"))
      else
        let record : ConvergenceRecord :=
          { scope := "nation", stateID := sid, clusterID := "",
            sourceID := trainer.nodeID, payload := payload, submittedAt := now }
        (putState l (nationStateKey sid) (LVal.convRec record), Except.ok record)

/-- Go `DeclareStateConvergence` (gateway_contract.go 537-572): read-check the
summary key, then validate the payload, then write once. -/
def declareStateConvergence (l : Ledger) (clientID stateID payload now : String) :
    Ledger × Except String ConvergenceSummary :=
  match requireAuthorizedTrainer l clientID with
  | Except.error e => (l, Except.error e)
  | Except.ok trainer =>
    match normalizeIdentifier stateID ("stateId") with
    | Except.error e => (l, Except.error e)
    | Except.ok sid =>
      match getState l (stateSummaryKey sid) with
      | some _ => (l, Except.error ("state " ++ sid ++ " already declared converged"))
      | none =>
        if trimStr payload = "" then (l, Except.error ("payload is required"))
        else
          let summary : ConvergenceSummary :=
            { scope := "state", targetID := sid, declaredBy := trainer.nodeID,
              declaredAt := now, payload := payload }
          (putState l (stateSummaryKey sid) (LVal.convSum summary), Except.ok summary)

/-- Go `DeclareNationConvergence` (gateway_contract.go 575-606). -/
def declareNationConvergence (l : Ledger) (clientID payload now : String) :
    Ledger × Except String ConvergenceSummary :=
  match requireAuthorizedTrainer l clientID with
  | Except.error e => (l, Except.error e)
  | Except.ok trainer =>
    match getState l nationSummaryKey with
    | some _ => (l, Except.error ("nation convergence already declared"))
    | none =>
      if trimStr payload = "" then (l, Except.error ("payload is required"))
      else
        let summary : ConvergenceSummary :=
          { scope := "nation", targetID := "nation", declaredBy := trainer.nodeID,
            declaredAt := now, payload := payload }
        (putState l nationSummaryKey (LVal.convSum summary), Except.ok summary)

/-- Go struct `StateConvergence` (clusters as an association list standing
for the Go map). -/
structure StateConvergence where
  stateID : String
  clusters : List (String × ConvergenceRecord)
  summary : Option ConvergenceSummary
deriving DecidableEq, Repr

/-- Go `ReadStateConvergence` (gateway_contract.go 609-650).  Values of a
record type other than the one the loop unmarshals into are skipped; the key
namespaces proved disjoint below keep that branch unreachable for ledgers
built through the operations of this contract. -/
def readStateConvergence (l : Ledger) (stateID : String) : Except String StateConvergence :=
  match normalizeIdentifier stateID ("stateId") with
  | Except.error e => Except.error e
  | Except.ok sid =>
    let scanned := rangeScan l ("conv:state:" ++ sid ++ ":")
    let init : StateConvergence := { stateID := sid, clusters := [], summary := none }
    Except.ok (scanned.foldl (fun acc kv =>
      if strEnds kv.1 (":summary") then
        match kv.2 with
        | LVal.convSum s => { acc with summary := some s }
        | _ => acc
      else if containsSub (":cluster:").data kv.1.data then
        match kv.2 with
        | LVal.convRec r =>
          if r.clusterID = "" then acc
          else { acc with clusters := mapPut acc.clusters r.clusterID r }
        | _ => acc
      else acc) init)

/-- One invocation of a state-writing chaincode function, with all arguments
supplied (including the modelled client identity and clock). -/
inductive Op where
  | registerTrainer (clientID did nodeID vcHash publicKey state cluster now : String)
  | recordWhitelistEntry (jwtSub did nodeID state cluster vcHash publicKey registered now : String)
  | commitData (clientID dataID payload now : String)
  | commitModel (clientID dataID layer scopeID payload now : String)
  | commitStateClusterConvergence (clientID stateID clusterID payload now : String)
  | commitNationStateConvergence (clientID stateID payload now : String)
  | declareStateConvergence (clientID stateID payload now : String)
  | declareNationConvergence (clientID payload now : String)

/-- The ledger state after one chaincode invocation (errors leave the ledger
untouched, exactly as each Go error return precedes the `PutState`). -/
def applyOp (l : Ledger) : Op → Ledger
  | Op.registerTrainer a b c d e f g h => (registerTrainer l a b c d e f g h).1
  | Op.recordWhitelistEntry a b c d e f g h i => (recordWhitelistEntry l a b c d e f g h i).1
  | Op.commitData a b c d => (commitData l a b c d).1
  | Op.commitModel a b c d e f => (commitModel l a b c d e f).1
  | Op.commitStateClusterConvergence a b c d e => (commitStateClusterConvergence l a b c d e).1
  | Op.commitNationStateConvergence a b c d => (commitNationStateConvergence l a b c d).1
  | Op.declareStateConvergence a b c d => (declareStateConvergence l a b c d).1
  | Op.declareNationConvergence a b c => (declareNationConvergence l a b c).1

theorem string_eq_of_data (x y : String) (h : x.data = y.data) : x = y :=
  String.ext h

theorem append_ne_append_of_take (p q : String) (n : Nat) (x y : String)
    (hp : n ≤ p.data.length) (hq : n ≤ q.data.length)
    (hne : p.data.take n ≠ q.data.take n) : p ++ x ≠ q ++ y := by
  intro h
  apply hne
  have hd := congrArg String.data h
  rw [String.data_append, String.data_append] at hd
  calc p.data.take n = (p.data ++ x.data).take n :=
        (List.take_append_of_le_length hp).symm
    _ = (q.data ++ y.data).take n := by rw [hd]
    _ = q.data.take n := List.take_append_of_le_length hq

theorem string_append_left_ne (a : String) {x y : String} (h : x ≠ y) :
    a ++ x ≠ a ++ y := by
  intro he
  apply h
  have hd := congrArg String.data he
  rw [String.data_append, String.data_append] at hd
  exact string_eq_of_data _ _ (List.append_cancel_left hd)

theorem ne_of_take (x y : String) (n : Nat) (h : x.data.take n ≠ y.data.take n) :
    x ≠ y := fun he => h (by rw [he])

theorem normalizeIdentifier_ok (v f x : String)
    (h : normalizeIdentifier v f = Except.ok x) : x = toLowerStr (trimStr v) := by
  unfold normalizeIdentifier at h
  by_cases hv : toLowerStr (trimStr v) = ""
  · simp [hv] at h
  · simp [hv] at h
    exact h.symm

theorem trainerKey_ne_stateSummaryKey (x σ : String) :
    trainerKey x ≠ stateSummaryKey σ := by
  unfold trainerKey stateSummaryKey
  rw [String.append_assoc]
  exact append_ne_append_of_take _ _ 5 _ _ (by decide) (by decide) (by decide)

theorem whitelistKey_ne_stateSummaryKey (x σ : String) :
    whitelistKey x ≠ stateSummaryKey σ := by
  unfold whitelistKey stateSummaryKey
  rw [String.append_assoc]
  exact append_ne_append_of_take _ _ 5 _ _ (by decide) (by decide) (by decide)

theorem dataKey_ne_stateSummaryKey (x σ : String) :
    dataKey x ≠ stateSummaryKey σ := by
  unfold dataKey stateSummaryKey
  rw [String.append_assoc]
  exact append_ne_append_of_take _ _ 5 _ _ (by decide) (by decide) (by decide)

theorem modelKey_ne_stateSummaryKey (x σ : String) :
    modelKey x ≠ stateSummaryKey σ := by
  unfold modelKey stateSummaryKey
  rw [String.append_assoc]
  exact append_ne_append_of_take _ _ 5 _ _ (by decide) (by decide) (by decide)

theorem nationStateKey_ne_stateSummaryKey (x σ : String) :
    nationStateKey x ≠ stateSummaryKey σ := by
  unfold nationStateKey stateSummaryKey
  rw [String.append_assoc]
  exact append_ne_append_of_take _ _ 8 _ _ (by decide) (by decide) (by decide)

theorem stateClusterKey_ne_stateSummaryKey (s c σ : String)
    (hs : s.data.count ':' = 0) (hc : c.data.count ':' = 0)
    (hσ : σ.data.count ':' = 0) : stateClusterKey s c ≠ stateSummaryKey σ := by
  intro h
  have hd := congrArg (fun t : String => (t.data.count ':')) h
  simp only [stateClusterKey, stateSummaryKey, String.data_append, List.count_append] at hd
  have e1 : List.count ':' ['c', 'o', 'n', 'v', ':', 's', 't', 'a', 't', 'e', ':'] = 2 := by
    decide
  have e2 : List.count ':' [':', 'c', 'l', 'u', 's', 't', 'e', 'r', ':'] = 2 := by decide
  have e3 : List.count ':' [':', 's', 'u', 'm', 'm', 'a', 'r', 'y'] = 1 := by decide
  omega

theorem trainerKey_ne_nationSummaryKey (x : String) :
    trainerKey x ≠ nationSummaryKey := by
  unfold trainerKey nationSummaryKey
  exact append_ne_append_of_take _ _ 5 _ _ (by decide) (by decide) (by decide)

theorem whitelistKey_ne_nationSummaryKey (x : String) :
    whitelistKey x ≠ nationSummaryKey := by
  unfold whitelistKey nationSummaryKey
  exact append_ne_append_of_take _ _ 5 _ _ (by decide) (by decide) (by decide)

theorem dataKey_ne_nationSummaryKey (x : String) :
    dataKey x ≠ nationSummaryKey := by
  unfold dataKey nationSummaryKey
  exact append_ne_append_of_take _ _ 5 _ _ (by decide) (by decide) (by decide)

theorem modelKey_ne_nationSummaryKey (x : String) :
    modelKey x ≠ nationSummaryKey := by
  unfold modelKey nationSummaryKey
  exact append_ne_append_of_take _ _ 5 _ _ (by decide) (by decide) (by decide)

theorem stateClusterKey_ne_nationSummaryKey (s c : String) :
    stateClusterKey s c ≠ nationSummaryKey := by
  unfold stateClusterKey nationSummaryKey
  rw [String.append_assoc, String.append_assoc]
  exact append_ne_append_of_take _ _ 7 _ _ (by decide) (by decide) (by decide)

theorem nationStateKey_ne_nationSummaryKey (s : String) :
    nationStateKey s ≠ nationSummaryKey := by
  unfold nationStateKey nationSummaryKey
  apply string_append_left_ne
  apply ne_of_take _ _ 3
  rw [String.data_append]
  rw [List.take_append_of_le_length (by decide)]
  decide

theorem stateSummaryKey_ne_nationSummaryKey (σ : String) :
    stateSummaryKey σ ≠ nationSummaryKey := by
  unfold stateSummaryKey nationSummaryKey
  rw [String.append_assoc]
  exact append_ne_append_of_take _ _ 7 _ _ (by decide) (by decide) (by decide)

theorem nationSummaryKey_ne_stateSummaryKey (σ : String) :
    nationSummaryKey ≠ stateSummaryKey σ :=
  Ne.symm (stateSummaryKey_ne_nationSummaryKey σ)

theorem getState_putState_of_none (l : Ledger) (k k' : String) (v w : LVal)
    (hfound : getState l k = some v) (hn : getState l k' = none) :
    getState (putState l k' w) k = some v := by
  by_cases hkk : k = k'
  · rw [hkk] at hfound
    rw [hfound] at hn
    cases hn
  · rw [getState_putState_ne _ _ _ _ hkk]
    exact hfound

theorem registerTrainer_local (l : Ledger) (a b c d e f g h : String) (k : String)
    (hk : ∀ x, trainerKey x ≠ k) :
    getState ((registerTrainer l a b c d e f g h).1) k = getState l k := by
  unfold registerTrainer
  dsimp only
  repeat' split
  any_goals rfl
  all_goals exact getState_putState_ne l _ k _ (Ne.symm (hk a))

theorem recordWhitelistEntry_local (l : Ledger) (a b c d e f g h i : String) (k : String)
    (hk : ∀ x, whitelistKey x ≠ k) :
    getState ((recordWhitelistEntry l a b c d e f g h i).1) k = getState l k := by
  unfold recordWhitelistEntry
  dsimp only
  repeat' split
  any_goals rfl
  all_goals exact getState_putState_ne l _ k _ (Ne.symm (hk _))

theorem commitData_local (l : Ledger) (a b c d : String) (k : String)
    (hk : ∀ x, dataKey x ≠ k) :
    getState ((commitData l a b c d).1) k = getState l k := by
  unfold commitData
  dsimp only
  repeat' split
  any_goals rfl
  all_goals exact getState_putState_ne l _ k _ (Ne.symm (hk _))

theorem commitModel_local (l : Ledger) (a b c d e f : String) (k : String)
    (hk : ∀ x, modelKey x ≠ k) :
    getState ((commitModel l a b c d e f).1) k = getState l k := by
  unfold commitModel
  dsimp only
  repeat' split
  any_goals rfl
  all_goals exact getState_putState_ne l _ k _ (Ne.symm (hk _))

theorem commitNationStateConvergence_local (l : Ledger) (a b c d : String) (k : String)
    (hk : ∀ x, nationStateKey x ≠ k) :
    getState ((commitNationStateConvergence l a b c d).1) k = getState l k := by
  unfold commitNationStateConvergence
  dsimp only
  repeat' split
  any_goals rfl
  all_goals exact getState_putState_ne l _ k _ (Ne.symm (hk _))

theorem commitStateClusterConvergence_local (l : Ledger) (a b c d e : String) (k : String)
    (hk : stateClusterKey (toLowerStr (trimStr b)) (toLowerStr (trimStr c)) ≠ k) :
    getState ((commitStateClusterConvergence l a b c d e).1) k = getState l k := by
  unfold commitStateClusterConvergence
  dsimp only
  repeat' split
  any_goals rfl
  rename_i x1 sid heqs x2 cid heqc hpay
  have hs := normalizeIdentifier_ok _ _ _ heqs
  have hc := normalizeIdentifier_ok _ _ _ heqc
  subst hs
  subst hc
  exact getState_putState_ne l _ k _ (Ne.symm hk)

theorem declareStateConvergence_keeps (l : Ledger) (a b c d : String) (k : String) (v : LVal)
    (hfound : getState l k = some v) :
    getState ((declareStateConvergence l a b c d).1) k = some v := by
  unfold declareStateConvergence
  dsimp only
  repeat' split
  any_goals exact hfound
  all_goals exact getState_putState_of_none l k _ v _ hfound (by assumption)

theorem declareNationConvergence_keeps (l : Ledger) (a b : String) (c : String) (k : String)
    (v : LVal) (hfound : getState l k = some v) :
    getState ((declareNationConvergence l a b c).1) k = some v := by
  unfold declareNationConvergence
  dsimp only
  repeat' split
  any_goals exact hfound
  all_goals exact getState_putState_of_none l k _ v _ hfound (by assumption)

/-- Side condition for cross-operation reasoning: a cluster-claim commit's
normalized state and cluster identifiers contain no ':' separator (any other
operation carries no condition). -/
def opColonFree : Op → Prop
  | Op.commitStateClusterConvergence _ st cl _ _ =>
      (toLowerStr (trimStr st)).data.count ':' = 0 ∧
      (toLowerStr (trimStr cl)).data.count ':' = 0
  | _ => True

theorem stateSummary_preserved (l : Ledger) (σ : String) (v : LVal)
    (hσ : σ.data.count ':' = 0)
    (hsome : getState l (stateSummaryKey σ) = some v)
    (op : Op) (hop : opColonFree op) :
    getState (applyOp l op) (stateSummaryKey σ) = some v := by
  cases op with
  | registerTrainer a b c d e f g h =>
    simp only [applyOp]
    rw [registerTrainer_local l a b c d e f g h _
      (fun x => trainerKey_ne_stateSummaryKey x σ)]
    exact hsome
  | recordWhitelistEntry a b c d e f g h i =>
    simp only [applyOp]
    rw [recordWhitelistEntry_local l a b c d e f g h i _
      (fun x => whitelistKey_ne_stateSummaryKey x σ)]
    exact hsome
  | commitData a b c d =>
    simp only [applyOp]
    rw [commitData_local l a b c d _ (fun x => dataKey_ne_stateSummaryKey x σ)]
    exact hsome
  | commitModel a b c d e f =>
    simp only [applyOp]
    rw [commitModel_local l a b c d e f _ (fun x => modelKey_ne_stateSummaryKey x σ)]
    exact hsome
  | commitStateClusterConvergence a b c d e =>
    obtain ⟨h1, h2⟩ := hop
    simp only [applyOp]
    rw [commitStateClusterConvergence_local l a b c d e _
      (stateClusterKey_ne_stateSummaryKey _ _ σ h1 h2 hσ)]
    exact hsome
  | commitNationStateConvergence a b c d =>
    simp only [applyOp]
    rw [commitNationStateConvergence_local l a b c d _
      (fun x => nationStateKey_ne_stateSummaryKey x σ)]
    exact hsome
  | declareStateConvergence a b c d =>
    simp only [applyOp]
    exact declareStateConvergence_keeps l a b c d _ v hsome
  | declareNationConvergence a b c =>
    simp only [applyOp]
    exact declareNationConvergence_keeps l a b c _ v hsome

theorem nationSummary_preserved (l : Ledger) (v : LVal)
    (hsome : getState l nationSummaryKey = some v) (op : Op) :
    getState (applyOp l op) nationSummaryKey = some v := by
  cases op with
  | registerTrainer a b c d e f g h =>
    simp only [applyOp]
    rw [registerTrainer_local l a b c d e f g h _
      (fun x => trainerKey_ne_nationSummaryKey x)]
    exact hsome
  | recordWhitelistEntry a b c d e f g h i =>
    simp only [applyOp]
    rw [recordWhitelistEntry_local l a b c d e f g h i _
      (fun x => whitelistKey_ne_nationSummaryKey x)]
    exact hsome
  | commitData a b c d =>
    simp only [applyOp]
    rw [commitData_local l a b c d _ (fun x => dataKey_ne_nationSummaryKey x)]
    exact hsome
  | commitModel a b c d e f =>
    simp only [applyOp]
    rw [commitModel_local l a b c d e f _ (fun x => modelKey_ne_nationSummaryKey x)]
    exact hsome
  | commitStateClusterConvergence a b c d e =>
    simp only [applyOp]
    rw [commitStateClusterConvergence_local l a b c d e _
      (stateClusterKey_ne_nationSummaryKey _ _)]
    exact hsome
  | commitNationStateConvergence a b c d =>
    simp only [applyOp]
    rw [commitNationStateConvergence_local l a b c d _
      (fun x => nationStateKey_ne_nationSummaryKey x)]
    exact hsome
  | declareStateConvergence a b c d =>
    simp only [applyOp]
    exact declareStateConvergence_keeps l a b c d _ v hsome
  | declareNationConvergence a b c =>
    simp only [applyOp]
    exact declareNationConvergence_keeps l a b c _ v hsome

/-- The shared pagination loop of Go `ListModels` (gateway_contract.go
325-353) and `ListWhitelist` (439-460): walk the scanned records in store
order, count the records passing the filter in `matched`, skip records whose
1-based matched rank is at most `start`, and append to `items` until it holds
`perPage` records (counting continues to the end of the scan). -/
def scanPage {α : Type} (keep : α → Bool) (start perPage : Nat) :
    List α → Nat → List α → Nat × List α
  | [], matched, items => (matched, items)
  | r :: rest, matched, items =>
    if keep r then
      if matched + 1 ≤ start then scanPage keep start perPage rest (matched + 1) items
      else if perPage ≤ items.length then scanPage keep start perPage rest (matched + 1) items
      else scanPage keep start perPage rest (matched + 1) (items ++ [r])
    else scanPage keep start perPage rest matched items

theorem scanPage_fst {α : Type} (keep : α → Bool) (start perPage : Nat) :
    ∀ (l : List α) (m : Nat) (items : List α),
      (scanPage keep start perPage l m items).1 = m + (l.filter keep).length := by
  intro l
  induction l with
  | nil => intro m items; simp [scanPage]
  | cons r rest ih =>
    intro m items
    by_cases hk : keep r
    · by_cases h1 : m + 1 ≤ start
      · simp [scanPage, hk, h1]
        rw [ih]
        omega
      · by_cases h2 : perPage ≤ items.length
        · simp [scanPage, hk, h1, h2]
          rw [ih]
          omega
        · simp [scanPage, hk, h1, h2]
          rw [ih]
          omega
    · simp [scanPage, hk]
      rw [ih]

theorem scanPage_snd {α : Type} (keep : α → Bool) (start perPage : Nat) :
    ∀ (l : List α) (m : Nat) (items : List α),
      (scanPage keep start perPage l m items).2 =
        items ++ ((l.filter keep).drop (start - m)).take (perPage - items.length) := by
  intro l
  induction l with
  | nil => intro m items; simp [scanPage]
  | cons r rest ih =>
    intro m items
    by_cases hk : keep r
    · by_cases h1 : m + 1 ≤ start
      · have hdrop : start - m = (start - (m + 1)) + 1 := by omega
        simp only [scanPage, hk, if_true, if_pos h1, List.filter_cons]
        rw [ih]
        rw [hdrop, List.drop_succ_cons]
      · by_cases h2 : perPage ≤ items.length
        · have htz : perPage - items.length = 0 := by omega
          simp only [scanPage, hk, if_true, if_neg h1, if_pos h2, List.filter_cons]
          rw [ih]
          simp [htz]
        · have hs0 : start - m = 0 := by omega
          have hs1 : start - (m + 1) = 0 := by omega
          have hpp : perPage - items.length = (perPage - items.length - 1) + 1 := by omega
          simp only [scanPage, hk, if_true, if_neg h1, if_neg h2, List.filter_cons]
          rw [ih]
          simp only [hs0, hs1, List.drop_zero, List.length_append, List.length_cons,
            List.length_nil, List.append_assoc, List.singleton_append]
          rw [hpp, List.take_succ_cons]
          have h3 : perPage - (items.length + (0 + 1)) = perPage - items.length - 1 := by omega
          rw [h3]
    · simp only [scanPage, List.filter_cons]
      rw [if_neg hk, if_neg (by simp [hk])]
      rw [ih]

theorem scanPage_spec {α : Type} (keep : α → Bool) (start perPage : Nat) (l : List α) :
    scanPage keep start perPage l 0 [] =
      ((l.filter keep).length, ((l.filter keep).drop start).take perPage) := by
  have h1 := scanPage_fst keep start perPage l 0 []
  have h2 := scanPage_snd keep start perPage l 0 []
  simp at h1 h2
  exact Prod.ext h1 h2

/-- Filter predicate of `ListModels` (gateway_contract.go 335-343): skip
records with empty id, require a case-insensitive layer match and, when a
scope filter is given, a case-insensitive scope match. -/
def modelKeep (layerFilter scopeFilter : String) (r : ModelRecord) : Bool :=
  !(r.id = "") && eqFold r.layer layerFilter &&
    (scopeFilter = "" || eqFold r.scopeID scopeFilter)

/-- Go struct `ModelListPage`. -/
structure ModelListPage where
  items : List ModelRecord
  page : Nat
  perPage : Nat
  total : Nat
  hasMore : Bool
deriving DecidableEq, Repr

/-- The scan-and-paginate body of `ListModels` over the decoded records of
the model keyspace, once the arguments are validated. -/
def listModelsScan (recs : List ModelRecord) (layerFilter scopeFilter : String)
    (page perPage : Nat) : ModelListPage :=
  let start := (page - 1) * perPage
  let res := scanPage (modelKeep layerFilter scopeFilter) start perPage recs 0 []
  { items := res.2, page := page, perPage := perPage, total := res.1,
    hasMore := decide (start + res.2.length < res.1) }

/-- Filter predicate of `ListWhitelist` (gateway_contract.go 448-450): skip
entries with an empty subject. -/
def wlKeep (e : WhitelistEntry) : Bool := !(e.jwtSub = "")

/-- Go struct `WhitelistListPage`. -/
structure WhitelistListPage where
  items : List WhitelistEntry
  page : Nat
  perPage : Nat
  total : Nat
  hasMore : Bool
deriving DecidableEq, Repr

/-- The scan-and-paginate body of `ListWhitelist`. -/
def listWhitelistScan (entries : List WhitelistEntry) (page perPage : Nat) :
    WhitelistListPage :=
  let start := (page - 1) * perPage
  let res := scanPage wlKeep start perPage entries 0 []
  { items := res.2, page := page, perPage := perPage, total := res.1,
    hasMore := decide (start + res.2.length < res.1) }

/-- The decoded model records under the model keyspace, in store order.
Values of another record type cannot appear under these keys for ledgers
built through this contract (key namespaces are disjoint) and are skipped. -/
def modelsOf (l : Ledger) : List ModelRecord :=
  (rangeScan l ("model:")).filterMap (fun kv =>
    match kv.2 with
    | LVal.modelRec m => some m
    | _ => none)

/-- The decoded whitelist entries under the whitelist keyspace. -/
def wlOf (l : Ledger) : List WhitelistEntry :=
  (rangeScan l ("whitelist:")).filterMap (fun kv =>
    match kv.2 with
    | LVal.wl e => some e
    | _ => none)

/-- Go `ListModels` (gateway_contract.go 285-363).  The numeric string
arguments are modelled after `strconv.Atoi`: `none` stands for a blank
argument (the default applies), `some n` for a successfully parsed integer; a
malformed number is a branch no claim needs. -/
def listModels (l : Ledger) (clientID layer scopeID : String)
    (pageArg perPageArg : Option Int) : Except String ModelListPage :=
  match requireAuthorizedTrainer l clientID with
  | Except.error e => Except.error e
  | Except.ok _ =>
    let layerFilter := toLowerStr (trimStr layer)
    if layerFilter = "" then Except.error ("layer is required")
    else
      let pageRes : Except String Int :=
        match pageArg with
        | none => Except.ok 1
        | some p => if p < 1 then Except.error ("page must be >= 1") else Except.ok p
      match pageRes with
      | Except.error e => Except.error e
      | Except.ok page =>
        let perRes : Except String Int :=
          match perPageArg with
          | none => Except.ok 10
          | some p =>
            if p < 1 then Except.error ("perPage must be >= 1") else Except.ok p
        match perRes with
        | Except.error e => Except.error e
        | Except.ok perPage =>
          Except.ok (listModelsScan (modelsOf l) layerFilter (trimStr scopeID)
            page.toNat perPage.toNat)

/-- Go `ListWhitelist` (gateway_contract.go 407-469).  Defaults: page 1,
perPage 50.  Unlike the other entry points it performs no authorization
check. -/
def listWhitelist (l : Ledger) (pageArg perPageArg : Option Int) :
    Except String WhitelistListPage :=
  let pageRes : Except String Int :=
    match pageArg with
    | none => Except.ok 1
    | some p => if p < 1 then Except.error ("page must be >= 1") else Except.ok p
  match pageRes with
  | Except.error e => Except.error e
  | Except.ok page =>
    let perRes : Except String Int :=
      match perPageArg with
      | none => Except.ok 50
      | some p => if p < 1 then Except.error ("perPage must be >= 1") else Except.ok p
    match perRes with
    | Except.error e => Except.error e
    | Except.ok perPage =>
      Except.ok (listWhitelistScan (wlOf l) page.toNat perPage.toNat)

/-- Go `whitelist.Service.List` (whitelist/service.go 95-120): reject
`page < 1`, silently replace `perPage < 1` by the default page size 50, then
query the chaincode `ListWhitelist` (its `ledgerList.toResult` conversion is
a field-for-field copy, modelled as the identity). -/
def whitelistServiceList (l : Ledger) (page perPage : Int) :
    Except String WhitelistListPage :=
  if page < 1 then Except.error ("page must be >= 1")
  else
    let pp := if perPage < 1 then 50 else perPage
    listWhitelist l (some page) (some pp)

/-- One accumulation pass of Go `whitelist.Service.Hierarchy`
(whitelist/service.go 70-92).  The Go loop has no bound; the model carries
explicit fuel and `hierarchy` below supplies enough for the loop to reach the
page with `HasMore == false`. -/
def hierarchyLoop (l : Ledger) : Nat → Int → List WhitelistEntry →
    Except String (List WhitelistEntry)
  | 0, _, _ => Except.error ("out of fuel")
  | fuel + 1, page, acc =>
    match whitelistServiceList l page 50 with
    | Except.error e => Except.error e
    | Except.ok res =>
      if res.hasMore then hierarchyLoop l fuel (page + 1) (acc ++ res.items)
      else Except.ok (acc ++ res.items)

/-- Go struct `whitelist.ClusterGroup`. -/
structure ClusterGroup where
  clusterID : String
  nodes : List WhitelistEntry
deriving DecidableEq, Repr

/-- Go struct `whitelist.StateGroup`. -/
structure StateGroup where
  stateID : String
  clusters : List ClusterGroup
deriving DecidableEq, Repr

/-- The state bucket `ToHierarchy` assigns to an entry (whitelist/service.go
187-190): the sentinel "unknown" when the trimmed state is empty. -/
def stateKeyOf (e : WhitelistEntry) : String :=
  if trimStr e.state = "" then "unknown" else trimStr e.state

/-- The cluster bucket (whitelist/service.go 191-194): sentinel
"unassigned" when the trimmed cluster is empty. -/
def clusterKeyOf (e : WhitelistEntry) : String :=
  if trimStr e.cluster = "" then "unassigned" else trimStr e.cluster

/-- Go `ListResult.ToHierarchy` (whitelist/service.go 172-225): group entries
by (state bucket, cluster bucket), with both levels sorted by
`sort.Strings`.  The Go map of slices is represented extensionally: the
bucket of a key holds exactly the entries assigned to it, in input order, and
the key set is the deduplicated image. -/
def toHierarchy (items : List WhitelistEntry) : List StateGroup :=
  let stateIDs := sortStrings (items.map stateKeyOf).dedup
  stateIDs.map (fun sid =>
    let inState := items.filter (fun e => stateKeyOf e = sid)
    let clusterIDs := sortStrings (inState.map clusterKeyOf).dedup
    { stateID := sid,
      clusters := clusterIDs.map (fun cid =>
        { clusterID := cid, nodes := inState.filter (fun e => clusterKeyOf e = cid) }) })

/-- Go `whitelist.Service.Hierarchy` (whitelist/service.go 70-92): page
through `List` with the fixed internal page size 50 until a page reports no
more results, then group the accumulated entries. -/
def hierarchy (l : Ledger) : Except String (List StateGroup) :=
  match hierarchyLoop l ((wlOf l).length + 1) 1 [] with
  | Except.error e => Except.error e
  | Except.ok all => Except.ok (toHierarchy all)

/-- Go `convergence.ClusterStatus` (convergence/service.go 44-50); the
decoded payload map is kept as the raw payload string, absent as `none`. -/
structure ClusterStatus where
  clusterID : String
  isConverged : Bool
  submittedAt : String
  sourceID : String
  payload : Option String
deriving DecidableEq, Repr

/-- Go `convergence.StateStatus` (convergence/service.go 53-60). -/
structure StateStatus where
  stateID : String
  isConverged : Bool
  convergedAt : String
  declaredBy : String
  summaryPayload : Option String
  clusters : List ClusterStatus
deriving DecidableEq, Repr

/-- Go `convergence.StateAggregate` (convergence/service.go 72-78). -/
structure StateAggregate where
  stateID : String
  isConverged : Bool
  submittedAt : String
  sourceID : String
  payload : Option String
deriving DecidableEq, Repr

/-- Go `convergence.NationStatus` (convergence/service.go 63-69). -/
structure NationStatus where
  isConverged : Bool
  convergedAt : String
  declaredBy : String
  summaryPayload : Option String
  states : List StateAggregate
deriving DecidableEq, Repr

/-- Go `ledgerStateConvergence` (convergence/service.go 443-447), the decoded
reply of `ReadStateConvergence`; the cluster map is an association list. -/
structure LedgerStateConv where
  stateID : String
  clusters : List (String × ConvergenceRecord)
  summary : Option ConvergenceSummary
deriving DecidableEq, Repr

/-- Go `ledgerNationConvergence` (convergence/service.go 456-459). -/
structure LedgerNationConv where
  states : List (String × ConvergenceRecord)
  summary : Option ConvergenceSummary
deriving DecidableEq, Repr

/-- Go `clustersForState` (convergence/service.go 381-403): find the first
state group whose id matches case-insensitively and return its cluster ids
sorted; a state absent from the whitelist hierarchy is a 400 error. -/
def clustersForState (hier : List StateGroup) (stateID : String) :
    Except String (List String) :=
  match hier.find? (fun g => eqFold g.stateID stateID) with
  | some g => Except.ok (sortStrings (g.clusters.map (fun c => c.clusterID)))
  | none => Except.error ("state " ++ stateID ++ " not found in whitelist")

/-- Go `latestClusterTime` (convergence/service.go 416-424). -/
def latestClusterTime (clusters : List ClusterStatus) : String :=
  clusters.foldl (fun latest c =>
    if ltStr latest c.submittedAt then c.submittedAt else latest) ""

/-- Go `stateStatusFromLedger` (convergence/service.go 287-334).  The Go
fallback `entry.ID()` re-reads the same `StateID` field, so it is the
identity here. -/
def stateStatusFromLedger (hier : List StateGroup) (entry : LedgerStateConv) :
    Except String StateStatus :=
  let stateID := entry.stateID
  match clustersForState hier stateID with
  | Except.error e => Except.error e
  | Except.ok clusterIDs =>
    let clusters : List ClusterStatus := clusterIDs.map (fun cid =>
      match entry.clusters.lookup cid with
      | some record =>
        { clusterID := cid, isConverged := true, submittedAt := record.submittedAt,
          sourceID := record.sourceID, payload := some record.payload }
      | none =>
        { clusterID := cid, isConverged := false, submittedAt := "",
          sourceID := "", payload := none })
    match entry.summary with
    | some summary =>
      let status : StateStatus :=
        { stateID := stateID, isConverged := true,
          convergedAt := summary.declaredAt, declaredBy := summary.declaredBy,
          summaryPayload := some summary.payload, clusters := clusters }
      Except.ok status
    | none =>
      let allConverged := clusters.all (fun c => c.isConverged)
      let isConv := allConverged && decide (0 < clusters.length)
      let status : StateStatus :=
        { stateID := stateID, isConverged := isConv,
          convergedAt := if isConv then latestClusterTime clusters else "",
          declaredBy := "", summaryPayload := none, clusters := clusters }
      Except.ok status

/-- The sorted state ids of the hierarchy, Go `hierarchyStateIDs`
(convergence/service.go 461-474). -/
def hierarchyStateIDs (hier : List StateGroup) : List String :=
  sortStrings (hier.map (fun g => g.stateID))

/-- Go `nationStatusFromLedger` (convergence/service.go 336-379).  Absent
records contribute the empty `submittedAt`, which never wins the `>` used for
`latest`, so folding over all aggregates equals Go's fold over the present
ones. -/
def nationStatusFromLedger (hier : List StateGroup) (entry : LedgerNationConv) :
    NationStatus :=
  let stateIDs := hierarchyStateIDs hier
  let states : List StateAggregate := stateIDs.map (fun sid =>
    match entry.states.lookup sid with
    | some record =>
      { stateID := sid, isConverged := true, submittedAt := record.submittedAt,
        sourceID := record.sourceID, payload := some record.payload }
    | none =>
      { stateID := sid, isConverged := false, submittedAt := "", sourceID := "",
        payload := none })
  let latest := states.foldl (fun latest s =>
    if ltStr latest s.submittedAt then s.submittedAt else latest) ""
  match entry.summary with
  | some summary =>
    { isConverged := true, convergedAt := summary.declaredAt,
      declaredBy := summary.declaredBy, summaryPayload := some summary.payload,
      states := states }
  | none =>
    let allConverged := states.all (fun s => s.isConverged)
    let isConv := allConverged && decide (0 < states.length)
    { isConverged := isConv, convergedAt := if isConv then latest else "",
      declaredBy := "", summaryPayload := none, states := states }

/-- Go `ListStateStatuses` (convergence/service.go 216-240): iterate the
decoded `ListStateConvergence` map, overwrite each entry's state id with its
map key, compute the per-state status, and return the first failure (the Go
map iteration order is immaterial to any property proved here). -/
def listStateStatuses (hier : List StateGroup) :
    List (String × LedgerStateConv) → Except String (List (String × StateStatus))
  | [] => Except.ok []
  | kv :: rest =>
    match stateStatusFromLedger hier { kv.2 with stateID := kv.1 } with
    | Except.error e => Except.error e
    | Except.ok status =>
      match listStateStatuses hier rest with
      | Except.error e => Except.error e
      | Except.ok out => Except.ok ((kv.1, status) :: out)

/-- Go `models.Service.List` (models/service.go 133-169): reject `page < 1`,
resolve the layer slug against the three configured layers, then query the
chaincode `ListModels` with the fixed service page size 10.  The caller's
resolved Fabric identity is the `clientID` argument. -/
def modelsServiceList (l : Ledger) (clientID layerSlug scopeID : String)
    (page : Int) : Except String ModelListPage :=
  if page < 1 then Except.error ("page must be >= 1")
  else
    let key := toLowerStr (trimStr layerSlug)
    if key = "" then Except.error ("layer is required")
    else if !(key = "cluster" || key = "state" || key = "nation") then
      Except.error ("layer " ++ key ++ " is not supported")
    else listModels l clientID key (trimStr scopeID) (some page) (some 10)

theorem pages_flatten {α : Type} (P : Nat) (F : List α) :
    ∀ k, ((List.range k).map (fun i => (F.drop (i * P)).take P)).flatten =
      F.take (k * P) := by
  intro k
  induction k with
  | zero => simp
  | succ k ih =>
    rw [List.range_succ, List.map_append, List.flatten_append]
    simp only [List.map_cons, List.map_nil, List.flatten_cons, List.flatten_nil,
      List.append_nil]
    rw [ih]
    have hx : (k + 1) * P = k * P + P := by ring
    rw [hx, List.take_add]

theorem ceil_mul_ge (M P : Nat) (hP : 1 ≤ P) : M ≤ ((M + P - 1) / P) * P := by
  have hP0 : 0 < P := by omega
  have h := (Nat.div_lt_iff_lt_mul hP0 :
    (M + P - 1) / P < (M + P - 1) / P + 1 ↔ M + P - 1 < ((M + P - 1) / P + 1) * P)
  have h2 : M + P - 1 < ((M + P - 1) / P + 1) * P := h.mp (by omega)
  have h3 : ((M + P - 1) / P + 1) * P = ((M + P - 1) / P) * P + P := by ring
  rw [h3] at h2
  generalize ((M + P - 1) / P) * P = A at h2 ⊢
  omega

theorem page_lt_ceil_iff (M P q : Nat) (hP : 1 ≤ P) :
    q + 1 < (M + P - 1) / P ↔ q * P + P < M := by
  have hP0 : 0 < P := by omega
  have h := (Nat.div_lt_iff_lt_mul hP0 :
    (M + P - 1) / P < q + 2 ↔ M + P - 1 < (q + 2) * P)
  have hx : (q + 2) * P = q * P + 2 * P := by ring
  rw [hx] at h
  generalize q * P = B at h ⊢
  omega

theorem listModelsScan_items (recs : List ModelRecord) (lf sf : String)
    (page P : Nat) :
    (listModelsScan recs lf sf page P).items =
      ((recs.filter (modelKeep lf sf)).drop ((page - 1) * P)).take P := by
  unfold listModelsScan
  dsimp only
  rw [scanPage_spec]

theorem listModelsScan_total (recs : List ModelRecord) (lf sf : String)
    (page P : Nat) :
    (listModelsScan recs lf sf page P).total =
      (recs.filter (modelKeep lf sf)).length := by
  unfold listModelsScan
  dsimp only
  rw [scanPage_spec]

theorem listModelsScan_hasMore (recs : List ModelRecord) (lf sf : String)
    (page P : Nat) (hpage : 1 ≤ page) (hP : 1 ≤ P) :
    ((listModelsScan recs lf sf page P).hasMore = true ↔
      page < ((recs.filter (modelKeep lf sf)).length + P - 1) / P) := by
  obtain ⟨q, rfl⟩ : ∃ q, page = q + 1 := ⟨page - 1, by omega⟩
  unfold listModelsScan
  dsimp only
  rw [scanPage_spec]
  simp only [decide_eq_true_eq, List.length_take, List.length_drop,
    Nat.add_sub_cancel]
  rw [page_lt_ceil_iff _ P q hP]
  generalize q * P = B
  omega

theorem listWhitelistScan_items (entries : List WhitelistEntry) (page P : Nat) :
    (listWhitelistScan entries page P).items =
      ((entries.filter wlKeep).drop ((page - 1) * P)).take P := by
  unfold listWhitelistScan
  dsimp only
  rw [scanPage_spec]

theorem listWhitelistScan_total (entries : List WhitelistEntry) (page P : Nat) :
    (listWhitelistScan entries page P).total = (entries.filter wlKeep).length := by
  unfold listWhitelistScan
  dsimp only
  rw [scanPage_spec]

theorem listWhitelistScan_hasMore (entries : List WhitelistEntry) (page P : Nat)
    (hpage : 1 ≤ page) (hP : 1 ≤ P) :
    ((listWhitelistScan entries page P).hasMore = true ↔
      page < ((entries.filter wlKeep).length + P - 1) / P) := by
  obtain ⟨q, rfl⟩ : ∃ q, page = q + 1 := ⟨page - 1, by omega⟩
  unfold listWhitelistScan
  dsimp only
  rw [scanPage_spec]
  simp only [decide_eq_true_eq, List.length_take, List.length_drop,
    Nat.add_sub_cancel]
  rw [page_lt_ceil_iff _ P q hP]
  generalize q * P = B
  omega

/-- C4: the pagination algorithm shared by `ListModels` and `ListWhitelist`.
Over the filtered scan-ordered sequence F (length M) and any page ≥ 1 and
page size P ≥ 1: the returned page equals the slice of F at ranks
((page-1)·P, (page-1)·P + P] (stated both as a drop/take slice and
positionally, items[j] = F[(page-1)·P + j]); the reported total is M; the
⌈M/P⌉ pages concatenated in page order reproduce F exactly once; and hasMore
is true exactly for pages before the last, page < ⌈M/P⌉. -/
theorem c4_pagination (recs : List ModelRecord) (entries : List WhitelistEntry)
    (lf sf : String) (page P : Nat) (hpage : 1 ≤ page) (hP : 1 ≤ P) :
    ((listModelsScan recs lf sf page P).items =
        ((recs.filter (modelKeep lf sf)).drop ((page - 1) * P)).take P ∧
      (∀ j : Nat, j < (listModelsScan recs lf sf page P).items.length →
        (listModelsScan recs lf sf page P).items[j]? =
          (recs.filter (modelKeep lf sf))[(page - 1) * P + j]?) ∧
      (listModelsScan recs lf sf page P).total =
        (recs.filter (modelKeep lf sf)).length ∧
      ((List.range (((recs.filter (modelKeep lf sf)).length + P - 1) / P)).map
          (fun k => (listModelsScan recs lf sf (k + 1) P).items)).flatten =
        recs.filter (modelKeep lf sf) ∧
      ((listModelsScan recs lf sf page P).hasMore = true ↔
        page < ((recs.filter (modelKeep lf sf)).length + P - 1) / P)) ∧
    ((listWhitelistScan entries page P).items =
        ((entries.filter wlKeep).drop ((page - 1) * P)).take P ∧
      (∀ j : Nat, j < (listWhitelistScan entries page P).items.length →
        (listWhitelistScan entries page P).items[j]? =
          (entries.filter wlKeep)[(page - 1) * P + j]?) ∧
      (listWhitelistScan entries page P).total = (entries.filter wlKeep).length ∧
      ((List.range (((entries.filter wlKeep).length + P - 1) / P)).map
          (fun k => (listWhitelistScan entries (k + 1) P).items)).flatten =
        entries.filter wlKeep ∧
      ((listWhitelistScan entries page P).hasMore = true ↔
        page < ((entries.filter wlKeep).length + P - 1) / P)) := by
  constructor
  · refine ⟨listModelsScan_items recs lf sf page P, ?_,
      listModelsScan_total recs lf sf page P, ?_,
      listModelsScan_hasMore recs lf sf page P hpage hP⟩
    · intro j hj
      rw [listModelsScan_items] at hj ⊢
      rw [List.length_take, List.length_drop] at hj
      have hjP : j < P := lt_of_lt_of_le hj (min_le_left _ _)
      rw [List.getElem?_take, if_pos hjP, List.getElem?_drop]
    · have hfun : (fun k => (listModelsScan recs lf sf (k + 1) P).items) =
          (fun i => ((recs.filter (modelKeep lf sf)).drop (i * P)).take P) := by
        funext k
        rw [listModelsScan_items]
        simp
      rw [hfun, pages_flatten]
      exact List.take_of_length_le (ceil_mul_ge _ P hP)
  · refine ⟨listWhitelistScan_items entries page P, ?_,
      listWhitelistScan_total entries page P, ?_,
      listWhitelistScan_hasMore entries page P hpage hP⟩
    · intro j hj
      rw [listWhitelistScan_items] at hj ⊢
      rw [List.length_take, List.length_drop] at hj
      have hjP : j < P := lt_of_lt_of_le hj (min_le_left _ _)
      rw [List.getElem?_take, if_pos hjP, List.getElem?_drop]
    · have hfun : (fun k => (listWhitelistScan entries (k + 1) P).items) =
          (fun i => ((entries.filter wlKeep).drop (i * P)).take P) := by
        funext k
        rw [listWhitelistScan_items]
        simp
      rw [hfun, pages_flatten]
      exact List.take_of_length_le (ceil_mul_ge _ P hP)

/-- Fifteen records matching the layer "cluster" filter, for the spec's
worked pagination example (page 2, perPage 10 over 15 matches). -/
def c4recs : List ModelRecord :=
  List.replicate 15
    { id := "m1", layer := "cluster", scopeID := "c1", owner := "n1",
      payload := "p", submittedAt := "t" }

theorem c4_pagination_witness :
    ((listModelsScan c4recs "cluster" "" 2 10).items.length = 5 ∧
      (listModelsScan c4recs "cluster" "" 2 10).hasMore = false ∧
      (listModelsScan c4recs "cluster" "" 2 10).total = 15) ∧
    ((listModelsScan c4recs "cluster" "" 2 10).items =
        ((c4recs.filter (modelKeep "cluster" "")).drop 10).take 10 ∧
      ((listModelsScan c4recs "cluster" "" 2 10).hasMore = true ↔
        2 < ((c4recs.filter (modelKeep "cluster" "")).length + 10 - 1) / 10)) :=
  ⟨by decide,
    ⟨by simpa using (c4_pagination c4recs [] "cluster" "" 2 10 (by decide)
        (by decide)).1.1,
     by simpa using (c4_pagination c4recs [] "cluster" "" 2 10 (by decide)
        (by decide)).1.2.2.2.2⟩⟩

/-- C5 counterexample: the claim says every paginated List operation fails
with a validation error when perPage < 1, but `whitelist.Service.List`
silently substitutes the default page size 50 and succeeds:
`List(page=1, perPage=0)` over an empty registry returns an ok page. -/
theorem c5_counterexample :
    whitelistServiceList [] 1 0 =
      Except.ok { items := [], page := 1, perPage := 50, total := 0,
                  hasMore := false } := rfl

/-- C5 (amended): `page < 1` fails with a validation error on every path
(chaincode `ListModels` and `ListWhitelist`, `models.Service.List`,
`whitelist.Service.List`), and `perPage < 1` fails in the chaincode
functions; but `whitelist.Service.List` replaces `perPage < 1` by the
default 50 instead of failing (the amendment the counterexample forces). -/
theorem c5_page_validation (l : Ledger) (cid layer scope slug : String)
    (pp : Option Int) (v w : Int) (page perPage : Int) (t : Trainer)
    (hauth : requireAuthorizedTrainer l cid = Except.ok t)
    (hlayer : toLowerStr (trimStr layer) ≠ "")
    (hv : v < 1) (hw : w < 1) :
    listModels l cid layer scope (some v) pp = Except.error ("page must be >= 1") ∧
    listModels l cid layer scope none (some w) =
      Except.error ("perPage must be >= 1") ∧
    listWhitelist l (some v) pp = Except.error ("page must be >= 1") ∧
    listWhitelist l none (some w) = Except.error ("perPage must be >= 1") ∧
    (page < 1 → modelsServiceList l cid slug scope page =
      Except.error ("page must be >= 1")) ∧
    (page < 1 → whitelistServiceList l page perPage =
      Except.error ("page must be >= 1")) ∧
    (perPage < 1 → whitelistServiceList l page perPage =
      whitelistServiceList l page 50) := by
  refine ⟨?_, ?_, ?_, ?_, ?_, ?_, ?_⟩
  · simp [listModels, hauth, hlayer, hv]
  · simp [listModels, hauth, hlayer, hw]
  · simp [listWhitelist, hv]
  · simp [listWhitelist, hw]
  · intro hp
    simp [modelsServiceList, hp]
  · intro hp
    simp [whitelistServiceList, hp]
  · intro hp
    simp [whitelistServiceList, hp]

/-- An authorized trainer record used by concrete instantiations. -/
def c5trainer : Trainer :=
  { clientID := "cid", did := "d1", nodeID := "n1", state := "s1",
    cluster := "c1", vcHash := "h1", publicKey := "pk1",
    status := "AUTHORIZED", registered := "t0" }

/-- A ledger holding one authorized trainer. -/
def c5ledger : Ledger := [(trainerKey ("cid"), LVal.trainer c5trainer)]

theorem c5_page_validation_witness :
    listModels c5ledger "cid" "cluster" "" (some 0) none =
        Except.error ("page must be >= 1") ∧
    listModels c5ledger "cid" "cluster" "" none (some 0) =
        Except.error ("perPage must be >= 1") ∧
    whitelistServiceList c5ledger 1 0 = whitelistServiceList c5ledger 1 50 := by
  have h := c5_page_validation c5ledger "cid" "cluster" "" "cluster" none 0 0 1 0
    c5trainer (by decide) (by decide) (by decide) (by decide)
  exact ⟨h.1, h.2.1, h.2.2.2.2.2.2 (by decide)⟩

/-- C6 counterexample: the claim says enrollment validates presence of the
state id and cluster id, yet `RegisterTrainer` with empty state and cluster
succeeds and stores a trainer whose state and cluster are empty, and
`RecordWhitelistEntry` likewise stores an entry with empty state and
cluster. -/
theorem c6_counterexample :
    (registerTrainer [] "cid" "did1" "n1" "h1" "pk1" "" "" "t0").2 =
      Except.ok () ∧
    getState (registerTrainer [] "cid" "did1" "n1" "h1" "pk1" "" "" "t0").1
        (trainerKey ("cid")) =
      some (LVal.trainer
        { clientID := "cid", did := "did1", nodeID := "n1", state := "",
          cluster := "", vcHash := "h1", publicKey := "pk1",
          status := "AUTHORIZED", registered := "t0" }) ∧
    (recordWhitelistEntry [] "Sub1" "did1" "n1" "" "" "h1" "pk1" "r0" "t0").2 =
      Except.ok () ∧
    getState (recordWhitelistEntry [] "Sub1" "did1" "n1" "" "" "h1" "pk1" "r0" "t0").1
        (whitelistKey ("sub1")) =
      some (LVal.wl
        { jwtSub := "sub1", did := "did1", nodeID := "n1", state := "",
          cluster := "", vcHash := "h1", publicKey := "pk1",
          registered := "r0" }) := by decide

/-- C6 (amended): `RegisterTrainer` requires DID, node id, credential hash
and public key (and `RecordWhitelistEntry` additionally the JWT subject),
each missing field failing with an error naming it, in the order the checks
appear; but the state and cluster ids are only trimmed, never required — a
trainer or whitelist record with empty state or cluster is accepted by the
ledger functions (presence of state/cluster is enforced only by the HTTP
enrollment service in front of them). -/
theorem c6_enrollment_validation (l : Ledger)
    (cid did nodeID vcHash publicKey state cluster now : String)
    (jwtSub registered : String) :
    (trimStr did = "" →
      registerTrainer l cid did nodeID vcHash publicKey state cluster now =
        (l, Except.error ("did is required"))) ∧
    (trimStr did ≠ "" → trimStr nodeID = "" →
      registerTrainer l cid did nodeID vcHash publicKey state cluster now =
        (l, Except.error ("nodeId is required"))) ∧
    (trimStr did ≠ "" → trimStr nodeID ≠ "" → trimStr vcHash = "" →
      registerTrainer l cid did nodeID vcHash publicKey state cluster now =
        (l, Except.error ("vcHash is required"))) ∧
    (trimStr did ≠ "" → trimStr nodeID ≠ "" → trimStr vcHash ≠ "" →
        trimStr publicKey = "" →
      registerTrainer l cid did nodeID vcHash publicKey state cluster now =
        (l, Except.error ("publicKey is required"))) ∧
    (trimStr jwtSub = "" →
      recordWhitelistEntry l jwtSub did nodeID state cluster vcHash publicKey
          registered now =
        (l, Except.error ("jwtSub is required"))) ∧
    (trimStr did ≠ "" → trimStr nodeID ≠ "" → trimStr vcHash ≠ "" →
        trimStr publicKey ≠ "" →
      (registerTrainer l cid did nodeID vcHash publicKey "" "" now).2 =
          Except.ok () ∧
      getState (registerTrainer l cid did nodeID vcHash publicKey "" "" now).1
          (trainerKey cid) =
        some (LVal.trainer
          { clientID := cid, did := did, nodeID := nodeID, state := "",
            cluster := "", vcHash := vcHash, publicKey := publicKey,
            status := "AUTHORIZED", registered := now })) := by
  refine ⟨?_, ?_, ?_, ?_, ?_, ?_⟩
  · intro h1
    simp [registerTrainer, h1]
  · intro h1 h2
    simp [registerTrainer, h1, h2]
  · intro h1 h2 h3
    simp [registerTrainer, h1, h2, h3]
  · intro h1 h2 h3 h4
    simp [registerTrainer, h1, h2, h3, h4]
  · intro h1
    simp [recordWhitelistEntry, h1]
  · intro h1 h2 h3 h4
    constructor
    · simp [registerTrainer, h1, h2, h3, h4]
    · simp [registerTrainer, h1, h2, h3, h4, getState_putState_self]
      rfl

theorem c6_enrollment_validation_witness :
    registerTrainer [] "cid" "" "n1" "h1" "pk1" "s1" "c1" "t0" =
      ([], Except.error ("did is required")) ∧
    recordWhitelistEntry [] " " "did1" "n1" "s1" "c1" "h1" "pk1" "r0" "t0" =
      ([], Except.error ("jwtSub is required")) ∧
    (registerTrainer [] "cid" "did1" "n1" "h1" "pk1" "" "" "t0").2 =
      Except.ok () := by
  have h := c6_enrollment_validation [] "cid" "" "n1" "h1" "pk1" "s1" "c1" "t0"
    " " "r0"
  have h2 := c6_enrollment_validation [] "cid" "did1" "n1" "h1" "pk1" "" "" "t0"
    "sub1" "r0"
  exact ⟨h.1 (by decide), h.2.2.2.2.1 (by decide),
    (h2.2.2.2.2.2 (by decide) (by decide) (by decide) (by decide)).1⟩

/-- Authorized trainer owning the test records of the read-path check. -/
def c7trainerA : Trainer :=
  { clientID := "cidA", did := "dA", nodeID := "nodeA", state := "s1",
    cluster := "c1", vcHash := "hA", publicKey := "pkA",
    status := "AUTHORIZED", registered := "t0" }

/-- A second authorized trainer, not the owner of any record. -/
def c7trainerB : Trainer :=
  { clientID := "cidB", did := "dB", nodeID := "nodeB", state := "s1",
    cluster := "c2", vcHash := "hB", publicKey := "pkB",
    status := "AUTHORIZED", registered := "t0" }

/-- Ledger with both trainers, one data record and one model record, both
committed by trainer A. -/
def c7ledger : Ledger :=
  (commitModel
    (commitData
      [(trainerKey ("cidA"), LVal.trainer c7trainerA),
       (trainerKey ("cidB"), LVal.trainer c7trainerB)]
      "cidA" "d1" "p1" "t1").1
    "cidA" "m1" "cluster" "c1" "p2" "t2").1

/-- C7 evaluated at the failing input: trainer B (node "nodeB"), who is not
the owner, reads trainer A's record through the legacy `ReadData` path and
receives it — the code performs no per-owner check on either path, although
the claim (and the repository README) state that `ReadData` rejects
non-owner reads.  The scoped `ReadModel` path (which the claim correctly
describes as owner-unrestricted) also returns the record. -/
theorem c7_readData_owner_bypass :
    readData c7ledger "cidB" "d1" =
      Except.ok { id := "d1", owner := "nodeA", payload := "p1",
                  submittedAt := "t1" } ∧
    readModel c7ledger "cidB" "m1" =
      Except.ok { id := "m1", layer := "cluster", scopeID := "c1",
                  owner := "nodeA", payload := "p2", submittedAt := "t2" } ∧
    c7trainerB.nodeID ≠ "nodeA" := by decide

/-- C10: `DeclareStateConvergence` and `DeclareNationConvergence` leave the
ledger untouched on every error path; the existing-summary read-check
precedes payload validation, so a declare on an already-declared target
fails with the already-declared error for every payload, empty included;
and an empty-payload declare on an undeclared target fails without writing,
leaving the target still declarable. -/
theorem c10_declare_error_paths (l : Ledger) (cid sid p p2 now e : String)
    (t : Trainer) (σ : String) (v : LVal) :
    ((declareStateConvergence l cid sid p now).2 = Except.error e →
      (declareStateConvergence l cid sid p now).1 = l) ∧
    ((declareNationConvergence l cid p now).2 = Except.error e →
      (declareNationConvergence l cid p now).1 = l) ∧
    (requireAuthorizedTrainer l cid = Except.ok t →
      normalizeIdentifier sid ("stateId") = Except.ok σ →
      getState l (stateSummaryKey σ) = some v →
      declareStateConvergence l cid sid p now =
        (l, Except.error ("state " ++ σ ++ " already declared converged"))) ∧
    (requireAuthorizedTrainer l cid = Except.ok t →
      getState l nationSummaryKey = some v →
      declareNationConvergence l cid p now =
        (l, Except.error ("nation convergence already declared"))) ∧
    (requireAuthorizedTrainer l cid = Except.ok t →
      normalizeIdentifier sid ("stateId") = Except.ok σ →
      getState l (stateSummaryKey σ) = none →
      trimStr p = "" →
      declareStateConvergence l cid sid p now =
        (l, Except.error ("payload is required")) ∧
      (trimStr p2 ≠ "" →
        (declareStateConvergence l cid sid p2 now).2 =
          Except.ok { scope := "state", targetID := σ, declaredBy := t.nodeID,
                      declaredAt := now, payload := p2 })) := by
  refine ⟨?_, ?_, ?_, ?_, ?_⟩
  · unfold declareStateConvergence
    repeat' split
    all_goals intro he
    all_goals first
    | rfl
    | simp at he
  · unfold declareNationConvergence
    repeat' split
    all_goals intro he
    all_goals first
    | rfl
    | simp at he
  · intro hauth hnorm hsome
    simp [declareStateConvergence, hauth, hnorm, hsome]
  · intro hauth hsome
    simp [declareNationConvergence, hauth, hsome]
  · intro hauth hnorm hnone hp
    constructor
    · simp [declareStateConvergence, hauth, hnorm, hnone, hp]
    · intro hp2
      simp [declareStateConvergence, hauth, hnorm, hnone, hp2]

/-- Ledger where state "s1" has already been declared converged. -/
def c10ledger : Ledger :=
  (declareStateConvergence c5ledger "cid" "s1" "p1" "t1").1

theorem c10_declare_error_paths_witness :
    declareStateConvergence c10ledger "cid" "s1" "" "t2" =
      (c10ledger, Except.error ("state " ++ "s1" ++ " already declared converged")) ∧
    declareStateConvergence c5ledger "cid" "s1" "" "t1" =
      (c5ledger, Except.error ("payload is required")) ∧
    (declareStateConvergence c5ledger "cid" "s1" "p9" "t1").2 =
      Except.ok { scope := "state", targetID := "s1",
                  declaredBy := c5trainer.nodeID, declaredAt := "t1",
                  payload := "p9" } := by
  have h1 := c10_declare_error_paths c10ledger "cid" "s1" "" "" "t2" ""
    c5trainer "s1" (LVal.convSum
      { scope := "state", targetID := "s1", declaredBy := "n1",
        declaredAt := "t1", payload := "p1" })
  have h2 := c10_declare_error_paths c5ledger "cid" "s1" "" "p9" "t1" ""
    c5trainer "s1" (LVal.convSum
      { scope := "state", targetID := "s1", declaredBy := "n1",
        declaredAt := "t1", payload := "p1" })
  have h5 := h2.2.2.2.2 (by decide) (by decide) (by decide) (by decide)
  exact ⟨h1.2.2.1 (by decide) (by decide) (by decide),
    h5.1, h5.2 (by decide)⟩

/-- Ledger with one authorized trainer for the key-collision run. -/
def c1ledger1 : Ledger :=
  (registerTrainer [] "cid" "did1" "n1" "h1" "pk1" "s" "c" "t0").1

/-- The same ledger after declaring state "a:cluster:y" converged. -/
def c1ledger2 : Ledger :=
  (declareStateConvergence c1ledger1 "cid" "a:cluster:y" "p1" "t1").1

/-- The same ledger after a cluster claim for state "a", cluster
"y:summary". -/
def c1ledger3 : Ledger :=
  (commitStateClusterConvergence c1ledger2 "cid" "a" "y:summary" "p2" "t2").1

/-- C1 counterexample: the claim says no operation ever updates or deletes
an existing summary, but the convergence key encoding does not escape ':'
inside identifiers, so `CommitStateClusterConvergence("a", "y:summary")`
writes the very key that stores the summary declared for state
"a:cluster:y" and silently replaces it with a ConvergenceRecord. -/
theorem c1_counterexample :
    stateClusterKey "a" "y:summary" = stateSummaryKey ("a:cluster:y") ∧
    getState c1ledger2 (stateSummaryKey ("a:cluster:y")) =
      some (LVal.convSum
        { scope := "state", targetID := "a:cluster:y", declaredBy := "n1",
          declaredAt := "t1", payload := "p1" }) ∧
    (commitStateClusterConvergence c1ledger2 "cid" "a" "y:summary" "p2"
      "t2").2 =
      Except.ok
        { scope := "state", stateID := "a", clusterID := "y:summary",
          sourceID := "n1", payload := "p2", submittedAt := "t2" } ∧
    getState c1ledger3 (stateSummaryKey ("a:cluster:y")) =
      some (LVal.convRec
        { scope := "state", stateID := "a", clusterID := "y:summary",
          sourceID := "n1", payload := "p2", submittedAt := "t2" }) := by
  decide

/-- C1 (amended): per (scope, target), the first successful declare creates
the summary at a key previously unbound, every later declare for the same
normalized target fails with the already-declared error regardless of the
payload, and no chaincode operation updates or deletes an existing state
summary provided the normalized state and cluster identifiers involved
contain no ':' (the restriction the counterexample forces); the nation
summary is preserved by every operation unconditionally. -/
theorem c1_write_once (l : Ledger) (cid sid p now σ : String) (v : LVal)
    (s : ConvergenceSummary) (t : Trainer) :
    ((declareStateConvergence l cid sid p now).2 = Except.ok s →
      getState l (stateSummaryKey s.targetID) = none ∧
      getState (declareStateConvergence l cid sid p now).1
          (stateSummaryKey s.targetID) = some (LVal.convSum s)) ∧
    (requireAuthorizedTrainer l cid = Except.ok t →
      normalizeIdentifier sid ("stateId") = Except.ok σ →
      getState l (stateSummaryKey σ) = some v →
      declareStateConvergence l cid sid p now =
        (l, Except.error ("state " ++ σ ++ " already declared converged"))) ∧
    ((declareNationConvergence l cid p now).2 = Except.ok s →
      getState l nationSummaryKey = none ∧
      getState (declareNationConvergence l cid p now).1 nationSummaryKey =
        some (LVal.convSum s)) ∧
    (requireAuthorizedTrainer l cid = Except.ok t →
      getState l nationSummaryKey = some v →
      declareNationConvergence l cid p now =
        (l, Except.error ("nation convergence already declared"))) ∧
    (σ.data.count ':' = 0 →
      getState l (stateSummaryKey σ) = some v →
      ∀ op : Op, opColonFree op →
        getState (applyOp l op) (stateSummaryKey σ) = some v) ∧
    (getState l nationSummaryKey = some v →
      ∀ op : Op, getState (applyOp l op) nationSummaryKey = some v) := by
  refine ⟨?_, ?_, ?_, ?_, ?_, ?_⟩
  · unfold declareStateConvergence
    repeat' split
    all_goals intro he
    all_goals try simp at he
    subst he
    exact ⟨by assumption, getState_putState_self l _ _⟩
  · intro hauth hnorm hsome
    simp [declareStateConvergence, hauth, hnorm, hsome]
  · unfold declareNationConvergence
    repeat' split
    all_goals intro he
    all_goals try simp at he
    subst he
    exact ⟨by assumption, getState_putState_self l _ _⟩
  · intro hauth hsome
    simp [declareNationConvergence, hauth, hsome]
  · intro hσ hsome op hop
    exact stateSummary_preserved l σ v hσ hsome op hop
  · intro hsome op
    exact nationSummary_preserved l v hsome op

theorem c1_write_once_witness :
    (getState c5ledger (stateSummaryKey ("s1")) = none ∧
      getState c10ledger (stateSummaryKey ("s1")) =
        some (LVal.convSum
          { scope := "state", targetID := "s1", declaredBy := "n1",
            declaredAt := "t1", payload := "p1" })) ∧
    declareStateConvergence c10ledger "cid" "S1" "p2" "t2" =
      (c10ledger,
        Except.error ("state " ++ "s1" ++ " already declared converged")) ∧
    getState (applyOp c10ledger (Op.commitData "cid" "d1" "px" "t3"))
        (stateSummaryKey ("s1")) =
      some (LVal.convSum
        { scope := "state", targetID := "s1", declaredBy := "n1",
          declaredAt := "t1", payload := "p1" }) := by
  refine ⟨?_, ?_, ?_⟩
  · exact (c1_write_once c5ledger "cid" "s1" "p1" "t1" "s1"
      (LVal.convSum
        { scope := "state", targetID := "s1", declaredBy := "n1",
          declaredAt := "t1", payload := "p1" })
      { scope := "state", targetID := "s1", declaredBy := "n1",
        declaredAt := "t1", payload := "p1" }
      c5trainer).1 (by decide)
  · exact (c1_write_once c10ledger "cid" "S1" "p2" "t2" "s1"
      (LVal.convSum
        { scope := "state", targetID := "s1", declaredBy := "n1",
          declaredAt := "t1", payload := "p1" })
      { scope := "state", targetID := "s1", declaredBy := "n1",
        declaredAt := "t1", payload := "p1" }
      c5trainer).2.1 (by decide) (by decide) (by decide)
  · exact (c1_write_once c10ledger "cid" "s1" "p1" "t1" "s1"
      (LVal.convSum
        { scope := "state", targetID := "s1", declaredBy := "n1",
          declaredAt := "t1", payload := "p1" })
      { scope := "state", targetID := "s1", declaredBy := "n1",
        declaredAt := "t1", payload := "p1" }
      c5trainer).2.2.2.2.1 (by decide) (by decide)
      (Op.commitData "cid" "d1" "px" "t3") (by simp [opColonFree])

/-- C9: state and cluster identifiers are trimmed and lower-cased before the
convergence ledger key is built, so calls whose identifiers agree after
normalization are the same operation on the same ledger record
(`CommitStateClusterConvergence`, `DeclareStateConvergence`,
`ReadStateConvergence`), and an identifier empty after trimming is rejected
with an error naming the field. -/
theorem c9_identifier_normalization (l : Ledger)
    (cid a b c1 c2 p now f : String) (t : Trainer)
    (hst : toLowerStr (trimStr a) = toLowerStr (trimStr b))
    (hcl : toLowerStr (trimStr c1) = toLowerStr (trimStr c2)) :
    normalizeIdentifier a f = normalizeIdentifier b f ∧
    commitStateClusterConvergence l cid a c1 p now =
      commitStateClusterConvergence l cid b c2 p now ∧
    declareStateConvergence l cid a p now =
      declareStateConvergence l cid b p now ∧
    readStateConvergence l a = readStateConvergence l b ∧
    (toLowerStr (trimStr a) = "" →
      normalizeIdentifier a f = Except.error (f ++ " is required") ∧
      readStateConvergence l a = Except.error ("stateId" ++ " is required") ∧
      (requireAuthorizedTrainer l cid = Except.ok t →
        commitStateClusterConvergence l cid a c1 p now =
          (l, Except.error ("stateId" ++ " is required")))) := by
  refine ⟨?_, ?_, ?_, ?_, ?_⟩
  · simp [normalizeIdentifier, hst]
  · simp [commitStateClusterConvergence, normalizeIdentifier, hst, hcl]
  · simp [declareStateConvergence, normalizeIdentifier, hst]
  · simp [readStateConvergence, normalizeIdentifier, hst]
  · intro hz
    refine ⟨?_, ?_, ?_⟩
    · simp [normalizeIdentifier, hz]
    · simp [readStateConvergence, normalizeIdentifier, hz]
    · intro hauth
      simp [commitStateClusterConvergence, normalizeIdentifier, hz, hauth]

theorem c9_identifier_normalization_witness :
    commitStateClusterConvergence c5ledger "cid" " S1 " " C1" "p1" "t1" =
      commitStateClusterConvergence c5ledger "cid" "s1" "c1" "p1" "t1" ∧
    readStateConvergence c5ledger " S1 " = readStateConvergence c5ledger "s1" ∧
    normalizeIdentifier "  " "stateId" =
      Except.error ("stateId" ++ " is required") := by
  have h := c9_identifier_normalization c5ledger "cid" " S1 " "s1" " C1" "c1"
    "p1" "t1" "stateId" c5trainer (by decide) (by decide)
  have h2 := c9_identifier_normalization c5ledger "cid" "  " "  " "c1" "c1"
    "p1" "t1" "stateId" c5trainer (by decide) (by decide)
  exact ⟨h.2.1, h.2.2.2.1, (h2.2.2.2.2 (by decide)).1⟩

theorem clusterStatus_isConverged (m : List (String × ConvergenceRecord))
    (c : String) :
    ((match m.lookup c with
      | some record =>
        ({ clusterID := c, isConverged := true,
           submittedAt := record.submittedAt, sourceID := record.sourceID,
           payload := some record.payload } : ClusterStatus)
      | none =>
        { clusterID := c, isConverged := false, submittedAt := "",
          sourceID := "", payload := none }) : ClusterStatus).isConverged =
      (m.lookup c).isSome := by
  cases m.lookup c <;> rfl

theorem stateAggregate_isConverged (m : List (String × ConvergenceRecord))
    (c : String) :
    ((match m.lookup c with
      | some record =>
        ({ stateID := c, isConverged := true,
           submittedAt := record.submittedAt, sourceID := record.sourceID,
           payload := some record.payload } : StateAggregate)
      | none =>
        { stateID := c, isConverged := false, submittedAt := "",
          sourceID := "", payload := none }) : StateAggregate).isConverged =
      (m.lookup c).isSome := by
  cases m.lookup c <;> rfl

theorem stateStatus_conv_helper (hier : List StateGroup)
    (entry : LedgerStateConv) (cids : List String) (st : StateStatus)
    (hcl : clustersForState hier entry.stateID = Except.ok cids)
    (hok : stateStatusFromLedger hier entry = Except.ok st) :
    (st.isConverged = true ↔
      entry.summary.isSome = true ∨
        (cids ≠ [] ∧ ∀ c ∈ cids, (entry.clusters.lookup c).isSome = true)) ∧
    (∀ s, entry.summary = some s →
      st.isConverged = true ∧ st.convergedAt = s.declaredAt ∧
      st.declaredBy = s.declaredBy ∧ st.summaryPayload = some s.payload) := by
  unfold stateStatusFromLedger at hok
  dsimp only at hok
  rw [hcl] at hok
  dsimp only at hok
  cases hsum : entry.summary with
  | some s0 =>
    rw [hsum] at hok
    dsimp only at hok
    simp only [Except.ok.injEq] at hok
    subst hok
    constructor
    · simp [hsum]
    · intro s hs
      simp only [Option.some.injEq] at hs
      subst hs
      exact ⟨rfl, rfl, rfl, rfl⟩
  | none =>
    rw [hsum] at hok
    dsimp only at hok
    simp only [Except.ok.injEq] at hok
    subst hok
    constructor
    · constructor
      · intro hc
        dsimp only at hc
        simp only [Bool.and_eq_true, List.all_eq_true, decide_eq_true_eq] at hc
        obtain ⟨h1, h2⟩ := hc
        right
        constructor
        · intro hnil
          rw [hnil] at h2
          simp at h2
        · intro c hcmem
          have hx := h1 _ (List.mem_map_of_mem _ hcmem)
          rw [← clusterStatus_isConverged entry.clusters c]
          exact hx
      · intro hc
        rcases hc with hc | ⟨hne, hc⟩
        · simp at hc
        · dsimp only
          simp only [Bool.and_eq_true, List.all_eq_true, decide_eq_true_eq]
          constructor
          · intro x hx
            obtain ⟨c, hcmem, rfl⟩ := List.mem_map.mp hx
            rw [clusterStatus_isConverged entry.clusters c]
            exact hc c hcmem
          · simp only [List.length_map]
            exact List.length_pos.mpr hne
    · intro s hs
      cases hs

theorem nationStatus_conv_helper (hier : List StateGroup)
    (nentry : LedgerNationConv) :
    ((nationStatusFromLedger hier nentry).isConverged = true ↔
      nentry.summary.isSome = true ∨
        (hierarchyStateIDs hier ≠ [] ∧
          ∀ s ∈ hierarchyStateIDs hier,
            (nentry.states.lookup s).isSome = true)) ∧
    (∀ s, nentry.summary = some s →
      (nationStatusFromLedger hier nentry).isConverged = true ∧
      (nationStatusFromLedger hier nentry).convergedAt = s.declaredAt ∧
      (nationStatusFromLedger hier nentry).declaredBy = s.declaredBy ∧
      (nationStatusFromLedger hier nentry).summaryPayload = some s.payload) := by
  unfold nationStatusFromLedger
  dsimp only
  cases hsum : nentry.summary with
  | some s0 =>
    constructor
    · simp
    · intro s hs
      simp only [Option.some.injEq] at hs
      subst hs
      exact ⟨rfl, rfl, rfl, rfl⟩
  | none =>
    constructor
    · constructor
      · intro hc
        dsimp only at hc
        simp only [Bool.and_eq_true, List.all_eq_true, decide_eq_true_eq] at hc
        obtain ⟨h1, h2⟩ := hc
        right
        constructor
        · intro hnil
          rw [hnil] at h2
          simp at h2
        · intro c hcmem
          have hx := h1 _ (List.mem_map_of_mem _ hcmem)
          rw [← stateAggregate_isConverged nentry.states c]
          exact hx
      · intro hc
        rcases hc with hc | ⟨hne, hc⟩
        · simp at hc
        · dsimp only
          simp only [Bool.and_eq_true, List.all_eq_true, decide_eq_true_eq]
          constructor
          · intro x hx
            obtain ⟨c, hcmem, rfl⟩ := List.mem_map.mp hx
            rw [stateAggregate_isConverged nentry.states c]
            exact hc c hcmem
          · simp only [List.length_map]
            exact List.length_pos.mpr hne
    · intro s hs
      cases hs

/-- C2: for a state status read, `IsConverged` is true exactly when a
summary exists or the expected child set from the whitelist hierarchy is
non-empty and every expected child has a submitted record; when a summary
exists it supplies the displayed converged-at / declared-by / payload fields
even when not all (or none) of the children have submitted.  The same holds
at the nation scope with the hierarchy's states as the expected set. -/
theorem c2_isconverged_iff (hier : List StateGroup) (entry : LedgerStateConv)
    (nentry : LedgerNationConv) (cids : List String) (st : StateStatus)
    (hcl : clustersForState hier entry.stateID = Except.ok cids)
    (hok : stateStatusFromLedger hier entry = Except.ok st) :
    (st.isConverged = true ↔
      entry.summary.isSome = true ∨
        (cids ≠ [] ∧ ∀ c ∈ cids, (entry.clusters.lookup c).isSome = true)) ∧
    (∀ s, entry.summary = some s →
      st.isConverged = true ∧ st.convergedAt = s.declaredAt ∧
      st.declaredBy = s.declaredBy ∧ st.summaryPayload = some s.payload) ∧
    ((nationStatusFromLedger hier nentry).isConverged = true ↔
      nentry.summary.isSome = true ∨
        (hierarchyStateIDs hier ≠ [] ∧
          ∀ s ∈ hierarchyStateIDs hier,
            (nentry.states.lookup s).isSome = true)) ∧
    (∀ s, nentry.summary = some s →
      (nationStatusFromLedger hier nentry).isConverged = true ∧
      (nationStatusFromLedger hier nentry).convergedAt = s.declaredAt ∧
      (nationStatusFromLedger hier nentry).declaredBy = s.declaredBy ∧
      (nationStatusFromLedger hier nentry).summaryPayload = some s.payload) :=
  ⟨(stateStatus_conv_helper hier entry cids st hcl hok).1,
   (stateStatus_conv_helper hier entry cids st hcl hok).2,
   (nationStatus_conv_helper hier nentry).1,
   (nationStatus_conv_helper hier nentry).2⟩

/-- A whitelist hierarchy with one state and two expected clusters. -/
def c2hier : List StateGroup :=
  [{ stateID := "s1",
     clusters := [{ clusterID := "c1", nodes := [] },
                  { clusterID := "c2", nodes := [] }] }]

/-- A ledger state-convergence entry with a summary and zero submitted
children. -/
def c2entry : LedgerStateConv :=
  { stateID := "s1", clusters := [],
    summary := some { scope := "state", targetID := "s1", declaredBy := "n1",
                      declaredAt := "t1", payload := "p1" } }

/-- The status the service computes for `c2entry` under `c2hier`. -/
def c2status : StateStatus :=
  { stateID := "s1", isConverged := true, convergedAt := "t1",
    declaredBy := "n1", summaryPayload := some "p1",
    clusters := [{ clusterID := "c1", isConverged := false, submittedAt := "",
                   sourceID := "", payload := none },
                 { clusterID := "c2", isConverged := false, submittedAt := "",
                   sourceID := "", payload := none }] }

theorem c2_isconverged_iff_witness :
    (c2status.isConverged = true ↔
      c2entry.summary.isSome = true ∨
        (["c1", "c2"] ≠ [] ∧
          ∀ c ∈ ["c1", "c2"], (c2entry.clusters.lookup c).isSome = true)) ∧
    c2status.isConverged = true ∧ c2status.convergedAt = "t1" := by
  have h := c2_isconverged_iff c2hier c2entry
    { states := [], summary := none } ["c1", "c2"] c2status
    (by decide) (by decide)
  have h2 := h.2.1
    { scope := "state", targetID := "s1", declaredBy := "n1",
      declaredAt := "t1", payload := "p1" } rfl
  exact ⟨h.1, h2.1, h2.2.1⟩

/-- A ledger entry holding an orphaned claim: state "zz" has a cluster claim
but no whitelist membership. -/
def c3orphan : LedgerStateConv :=
  { stateID := "zz",
    clusters := [("c9",
      { scope := "state", stateID := "zz", clusterID := "c9",
        sourceID := "n9", payload := "p9", submittedAt := "t9" })],
    summary := none }

/-- C3 counterexample: the claim says a status read for a target unknown to
the whitelist but holding claims reports those claims with an empty expected
set and succeeds; instead `stateStatusFromLedger` fails with the 400 error
from `clustersForState`, and `ListStateStatuses` propagates the failure. -/
theorem c3_counterexample :
    stateStatusFromLedger c2hier c3orphan =
      Except.error ("state zz not found in whitelist") ∧
    listStateStatuses c2hier [("zz", c3orphan)] =
      Except.error ("state zz not found in whitelist") := by decide

/-- C3 (amended): when the whitelist hierarchy holds no state group whose id
matches the read target case-insensitively, the status read fails with the
error "state (id) not found in whitelist" even when claims exist for the
target, and `ListStateStatuses` propagates that failure for any such entry at
the head of its input, rather than reporting the claims with an empty
expected set. -/
theorem c3_unknown_state_errors (hier : List StateGroup)
    (entry : LedgerStateConv) (sid : String)
    (rest : List (String × LedgerStateConv))
    (hfind : hier.find? (fun g => eqFold g.stateID entry.stateID) = none)
    (hclaims : entry.clusters ≠ []) :
    stateStatusFromLedger hier entry =
      Except.error ("state " ++ entry.stateID ++ " not found in whitelist") ∧
    (hier.find? (fun g => eqFold g.stateID sid) = none →
      listStateStatuses hier ((sid, { entry with stateID := sid }) :: rest) =
        Except.error ("state " ++ sid ++ " not found in whitelist")) := by
  constructor
  · unfold stateStatusFromLedger clustersForState
    dsimp only
    rw [hfind]
  · intro h2
    have hhead : stateStatusFromLedger hier { entry with stateID := sid } =
        Except.error ("state " ++ sid ++ " not found in whitelist") := by
      unfold stateStatusFromLedger clustersForState
      dsimp only
      rw [h2]
    unfold listStateStatuses
    dsimp only
    rw [hhead]

theorem c3_unknown_state_errors_witness :
    stateStatusFromLedger c2hier c3orphan =
      Except.error ("state " ++ "zz" ++ " not found in whitelist") ∧
    listStateStatuses c2hier [("zz", c3orphan)] =
      Except.error ("state " ++ "zz" ++ " not found in whitelist") := by
  have h := c3_unknown_state_errors c2hier c3orphan "zz" []
    (by decide) (by decide)
  exact ⟨h.1, h.2 (by decide)⟩

theorem hierarchyLoop_collects (l : Ledger) :
    ∀ (fuel q : Nat),
      ((wlOf l).filter wlKeep).length ≤ q * 50 + fuel * 50 →
      1 ≤ fuel →
      hierarchyLoop l fuel (((q + 1 : Nat) : Int))
          (((wlOf l).filter wlKeep).take (q * 50)) =
        Except.ok ((wlOf l).filter wlKeep) := by
  intro fuel
  induction fuel with
  | zero =>
    intro q hbound hfuel
    exact absurd hfuel (by omega)
  | succ fuel ih =>
    intro q hbound hfuel
    have hpage : ¬(((q + 1 : Nat) : Int) < 1) := by
      push_cast
      omega
    have hsvc : whitelistServiceList l (((q + 1 : Nat) : Int)) 50 =
        Except.ok (listWhitelistScan (wlOf l) (q + 1) 50) := by
      unfold whitelistServiceList listWhitelist
      dsimp only
      rw [if_neg hpage]
      norm_num
      have h1 : ¬((q : Int) < 0) := by omega
      rw [if_neg h1]
      dsimp only
      have h2 : ((q : Int) + 1).toNat = q + 1 := by omega
      rw [h2]
      rfl
    unfold hierarchyLoop
    rw [hsvc]
    dsimp only
    have hitems : (listWhitelistScan (wlOf l) (q + 1) 50).items =
        (((wlOf l).filter wlKeep).drop (q * 50)).take 50 := by
      rw [listWhitelistScan_items]
      simp
    have hacc : ((wlOf l).filter wlKeep).take (q * 50) ++
        (listWhitelistScan (wlOf l) (q + 1) 50).items =
        ((wlOf l).filter wlKeep).take (q * 50 + 50) := by
      rw [hitems, List.take_add]
    cases hm : (listWhitelistScan (wlOf l) (q + 1) 50).hasMore with
    | true =>
      have hlt : q * 50 + 50 < ((wlOf l).filter wlKeep).length := by
        have hh := (listWhitelistScan_hasMore (wlOf l) (q + 1) 50 (by omega)
          (by omega)).mp hm
        exact (page_lt_ceil_iff ((wlOf l).filter wlKeep).length 50 q
          (by omega)).mp hh
      have hfuel1 : 1 ≤ fuel := by
        rcases Nat.eq_zero_or_pos fuel with hz | hp
        · subst hz
          omega
        · omega
      rw [if_pos rfl]
      rw [hacc]
      have hcast : (((q + 1 : Nat) : Int) + 1) = (((q + 1 + 1 : Nat) : Int)) := by
        push_cast
        ring
      rw [hcast]
      have hq50 : q * 50 + 50 = (q + 1) * 50 := by ring
      rw [hq50]
      exact ih (q + 1) (by omega) hfuel1
    | false =>
      have hge : ((wlOf l).filter wlKeep).length ≤ q * 50 + 50 := by
        have hh := listWhitelistScan_hasMore (wlOf l) (q + 1) 50 (by omega)
          (by omega)
        rw [hm] at hh
        simp only [Bool.false_eq_true, false_iff] at hh
        have hnot : ¬(q * 50 + 50 < ((wlOf l).filter wlKeep).length) :=
          fun hlt => hh ((page_lt_ceil_iff ((wlOf l).filter wlKeep).length 50 q
            (by omega)).mpr hlt)
        omega
      rw [if_neg Bool.false_ne_true]
      rw [hacc]
      rw [List.take_of_length_le (by omega)]

theorem hierarchy_eq (l : Ledger) :
    hierarchy l = Except.ok (toHierarchy ((wlOf l).filter wlKeep)) := by
  have hML : ((wlOf l).filter wlKeep).length ≤ (wlOf l).length :=
    List.length_filter_le _ _
  have h := hierarchyLoop_collects l ((wlOf l).length + 1) 0 (by omega) (by omega)
  simp only [Nat.zero_add, Nat.cast_one, Nat.zero_mul, List.take_zero] at h
  unfold hierarchy
  rw [h]

theorem toHierarchy_sorted_states (items : List WhitelistEntry) :
    List.Pairwise (fun a b => leStr a b = true)
      ((toHierarchy items).map (fun g => g.stateID)) := by
  unfold toHierarchy
  dsimp only
  rw [List.map_map, List.pairwise_map]
  exact sorted_sortStrings _

theorem toHierarchy_sorted_clusters (items : List WhitelistEntry) :
    ∀ g ∈ toHierarchy items,
      List.Pairwise (fun a b => leStr a b = true)
        (g.clusters.map (fun c => c.clusterID)) := by
  intro g hg
  unfold toHierarchy at hg
  dsimp only at hg
  obtain ⟨sid, hsid, rfl⟩ := List.mem_map.mp hg
  dsimp only
  rw [List.map_map, List.pairwise_map]
  exact sorted_sortStrings _

theorem toHierarchy_buckets (items : List WhitelistEntry) (e : WhitelistEntry)
    (he : e ∈ items) :
    ∃ g ∈ toHierarchy items, g.stateID = stateKeyOf e ∧
      ∃ cg ∈ g.clusters, cg.clusterID = clusterKeyOf e ∧ e ∈ cg.nodes := by
  unfold toHierarchy
  dsimp only
  have hsid : stateKeyOf e ∈ sortStrings (items.map stateKeyOf).dedup :=
    ((perm_sortStrings _).mem_iff).mpr
      (List.mem_dedup.mpr (List.mem_map_of_mem _ he))
  refine ⟨_, List.mem_map_of_mem _ hsid, rfl, ?_⟩
  have hin : e ∈ items.filter (fun x => stateKeyOf x = stateKeyOf e) := by
    rw [List.mem_filter]
    exact ⟨he, by simp⟩
  have hcid : clusterKeyOf e ∈ sortStrings
      ((items.filter (fun x => stateKeyOf x = stateKeyOf e)).map
        clusterKeyOf).dedup :=
    ((perm_sortStrings _).mem_iff).mpr
      (List.mem_dedup.mpr (List.mem_map_of_mem _ hin))
  refine ⟨_, List.mem_map_of_mem _ hcid, rfl, ?_⟩
  rw [List.mem_filter]
  exact ⟨hin, by simp⟩

/-- C8: `Hierarchy` pages through `List` with the fixed internal page size 50
until a page reports no more results, collecting exactly the whitelist
entries (with non-empty subject) in store order, and `ToHierarchy` groups
them deterministically: state groups in lexicographically sorted order of
state id, cluster groups within each state in lexicographically sorted order
of cluster id, and every entry bucketed under its trimmed state and cluster
with the sentinel "unknown" state and "unassigned" cluster for empty
values. -/
theorem c8_hierarchy (l : Ledger) (items : List WhitelistEntry)
    (e : WhitelistEntry) (he : e ∈ items) :
    hierarchy l = Except.ok (toHierarchy ((wlOf l).filter wlKeep)) ∧
    List.Pairwise (fun a b => leStr a b = true)
      ((toHierarchy items).map (fun g => g.stateID)) ∧
    (∀ g ∈ toHierarchy items,
      List.Pairwise (fun a b => leStr a b = true)
        (g.clusters.map (fun c => c.clusterID))) ∧
    (∃ g ∈ toHierarchy items, g.stateID = stateKeyOf e ∧
      ∃ cg ∈ g.clusters, cg.clusterID = clusterKeyOf e ∧ e ∈ cg.nodes) ∧
    (trimStr e.state = "" → stateKeyOf e = "unknown") ∧
    (trimStr e.cluster = "" → clusterKeyOf e = "unassigned") :=
  ⟨hierarchy_eq l, toHierarchy_sorted_states items,
   toHierarchy_sorted_clusters items, toHierarchy_buckets items e he,
   fun h => by simp [stateKeyOf, h], fun h => by simp [clusterKeyOf, h]⟩

/-- A whitelist entry with an empty state, bucketed under the sentinel. -/
def c8entry : WhitelistEntry :=
  { jwtSub := "suba", did := "d1", nodeID := "n1", state := "",
    cluster := "c1", vcHash := "h1", publicKey := "pk1", registered := "t0" }

theorem c8_hierarchy_witness :
    hierarchy [] = Except.ok (toHierarchy ((wlOf []).filter wlKeep)) ∧
    stateKeyOf c8entry = "unknown" ∧
    (∃ g ∈ toHierarchy [c8entry], g.stateID = stateKeyOf c8entry ∧
      ∃ cg ∈ g.clusters, cg.clusterID = clusterKeyOf c8entry ∧
        c8entry ∈ cg.nodes) := by
  have h := c8_hierarchy [] [c8entry] c8entry (by decide)
  exact ⟨h.1, h.2.2.2.2.1 (by decide), h.2.2.2.1⟩
